import Mathlib

/-!
# Verification of the json-to-csv-converter core

Shallow embedding of `src/json_to_csv_converter.py` and the relevant parts of
`src/app.py`, together with theorems settling the frozen claims about the
field-resolution and record-normalization engine.

Modelling conventions:
* JSON values are the inductive `JVal`.  Python floats are represented by the
  string `str()` produces for them, since no code path of the repository
  inspects a float other than via `str()` and truthiness.
* Python dicts are association lists in insertion order (`jget` looks up the
  first matching key; keys decoded from JSON are unique).
* Logging calls are dropped, except that log lines which slice their argument
  (`value[:50]`) are modelled by an explicit `TypeError` when the value is not
  sliceable, because that exception is observable to the caller.
* `time.time()` in the last branch of `generate_record_key` is not modelled;
  that branch is unreachable for standardized rows (the constant columns are
  never empty), and the modelled function returns the `"unknown:"` prefix.
* Exceptions are modelled with `Except String`, carrying an abbreviated
  message; claims never depend on the exact exception text.
-/

deriving instance DecidableEq for Except

/-- A JSON value as decoded by `json.loads`.  `float s` carries the Python
`str()` form of the float. -/
inductive JVal where
  | null
  | bool (b : Bool)
  | int (n : Int)
  | float (srepr : String)
  | str (s : String)
  | arr (xs : List JVal)
  | obj (fields : List (String × JVal))

/-- A decoded JSON object (Python dict), in insertion order. -/
abbrev Jobj := List (String × JVal)

/-- Dict lookup: value of the first (unique) matching key. -/
def jget : Jobj → String → Option JVal
  | [], _ => none
  | (k, v) :: rest, key => if k = key then some v else jget rest key

/-- Python dict assignment `d[k] = v`: replace the value in place if the key
exists, else append the pair. -/
def dictSetJ : Jobj → String → JVal → Jobj
  | [], k, v => [(k, v)]
  | (k', v') :: rest, k, v =>
    if k' = k then (k, v) :: rest else (k', v') :: dictSetJ rest k v

/-- Python `dst.update(src)`: assign every pair of `src` into `dst` in order. -/
def dictUpdate (dst src : Jobj) : Jobj :=
  src.foldl (fun acc kv => dictSetJ acc kv.1 kv.2) dst

/-- Python truthiness of a JSON value. -/
def truthy : JVal → Bool
  | .null => false
  | .bool b => b
  | .int n => n ≠ 0
  | .float s => s ≠ "0.0" && s ≠ "-0.0"
  | .str s => s ≠ ""
  | .arr xs => !xs.isEmpty
  | .obj kvs => !kvs.isEmpty

/-- Python `repr()` of a string: quoted, preferring single quotes, with the
common escapes.  (Rare control characters are kept verbatim; no claim
depends on them.) -/
def pyStrQuote (s : String) : String :=
  let useDouble := s.contains '\'' && !(s.contains '"')
  let q : Char := if useDouble then '"' else '\''
  let esc := s.data.foldr
    (fun c acc =>
      (if c = '\\' then "\\\\"
       else if c = q then (String.singleton '\\').push q
       else if c = '\n' then "\\n"
       else if c = '\r' then "\\r"
       else if c = '\t' then "\\t"
       else String.singleton c) ++ acc) ""
  ((String.singleton q) ++ esc).push q

mutual
/-- Python `repr()` of a JSON value (used by `str()` on containers). -/
def pyRepr : JVal → String
  | .null => "None"
  | .bool b => if b then "True" else "False"
  | .int n => toString n
  | .float s => s
  | .str s => pyStrQuote s
  | .arr xs => "[" ++ pyReprList xs ++ "]"
  | .obj kvs => "\x7b" ++ pyReprObj kvs ++ "\x7d"

/-- Comma-separated `repr()`s of list elements. -/
def pyReprList : List JVal → String
  | [] => ""
  | [x] => pyRepr x
  | x :: y :: rest => pyRepr x ++ ", " ++ pyReprList (y :: rest)

/-- Comma-separated `key: value` `repr()`s of dict entries. -/
def pyReprObj : List (String × JVal) → String
  | [] => ""
  | [(k, v)] => pyStrQuote k ++ ": " ++ pyRepr v
  | (k, v) :: e :: rest => pyStrQuote k ++ ": " ++ pyRepr v ++ ", " ++ pyReprObj (e :: rest)
end

/-- Python `str()` of a JSON value. -/
def pyStr : JVal → String
  | .null => "None"
  | .bool b => if b then "True" else "False"
  | .int n => toString n
  | .float s => s
  | .str s => s
  | .arr xs => pyRepr (.arr xs)
  | .obj kvs => pyRepr (.obj kvs)

/-- `record[k]` when key `k` is present with a truthy value
(the recurring Python pattern `'k' in record and record['k']`). -/
def truthyGet (record : Jobj) (k : String) : Option JVal :=
  match jget record k with
  | some v => if truthy v then some v else none
  | none => none

/-- The fixed 20 canonical column headers (`STANDARD_HEADERS`). -/
def STANDARD_HEADERS : List String :=
  ["Item ID", "Item Name", "SKU", "Description", "Rate", "Source",
   "Reference ID", "Usage unit", "Purchase Rate", "Purchase Account",
   "Vendor", "Item Type", "Is Combo Product", "CF.Manufacturer", "CF.URL",
   "CF.Markup", "CF.Description", "CF.Supplier", "CF.Material", "CF.Cost"]

/-- The ordered source-field-to-standard-field table (`FIELD_MAPPING`);
Python dicts preserve insertion order, so it is a list of pairs. -/
def FIELD_MAPPING : List (String × String) :=
  [("id", "Item ID"), ("item_id", "Item ID"), ("itemId", "Item ID"),
   ("product_id", "Item ID"), ("productId", "Item ID"),
   ("name", "Item Name"), ("item_name", "Item Name"), ("itemName", "Item Name"),
   ("product_name", "Item Name"), ("productName", "Item Name"), ("title", "Item Name"),
   ("sku", "SKU"), ("item_sku", "SKU"), ("itemSku", "SKU"),
   ("product_sku", "SKU"), ("productSku", "SKU"), ("model", "SKU"),
   ("model_number", "SKU"), ("modelNumber", "SKU"),
   ("description", "Description"), ("item_description", "Description"),
   ("itemDescription", "Description"), ("product_description", "Description"),
   ("productDescription", "Description"), ("details", "Description"),
   ("product_details", "Description"), ("productDetails", "Description"),
   ("price", "Rate"), ("rate", "Rate"), ("item_price", "Rate"),
   ("itemPrice", "Rate"), ("product_price", "Rate"), ("productPrice", "Rate"),
   ("unit_price", "Rate"), ("unitPrice", "Rate"),
   ("reference_id", "Reference ID"), ("referenceId", "Reference ID"),
   ("ref_id", "Reference ID"), ("refId", "Reference ID"),
   ("external_id", "Reference ID"), ("externalId", "Reference ID"),
   ("unit", "Usage unit"), ("usage_unit", "Usage unit"), ("usageUnit", "Usage unit"),
   ("measure_unit", "Usage unit"), ("measureUnit", "Usage unit"),
   ("purchase_price", "Purchase Rate"), ("purchasePrice", "Purchase Rate"),
   ("cost_price", "Purchase Rate"), ("costPrice", "Purchase Rate"),
   ("wholesale_price", "Purchase Rate"), ("wholesalePrice", "Purchase Rate"),
   ("category", "Item Type"), ("item_type", "Item Type"), ("itemType", "Item Type"),
   ("product_type", "Item Type"), ("productType", "Item Type"),
   ("product_category", "Item Type"), ("productCategory", "Item Type"),
   ("manufacturer", "CF.Manufacturer"), ("brand", "CF.Manufacturer"),
   ("maker", "CF.Manufacturer"),
   ("url", "CF.URL"), ("product_url", "CF.URL"), ("productUrl", "CF.URL"),
   ("link", "CF.URL"), ("web_link", "CF.URL"), ("webLink", "CF.URL"),
   ("material", "CF.Material"), ("materials", "CF.Material"),
   ("item_material", "CF.Material"), ("itemMaterial", "CF.Material"),
   ("product_material", "CF.Material"), ("productMaterial", "CF.Material")]

/-- Python `str.lower()` (ASCII, as in the source's field names). -/
def pyLower (s : String) : String := String.mk (s.data.map Char.toLower)

/-- Python `str.strip()`: drop leading and trailing whitespace. -/
def pyTrim (s : String) : String :=
  let wsp : Char → Bool := fun c =>
    c = ' ' || c = '\t' || c = '\n' || c = '\r' || c = '\x0b' || c = '\x0c'
  String.mk (((s.data.dropWhile wsp).reverse.dropWhile wsp).reverse)

/-- Is the first list a prefix of the second? -/
def listPrefix : List Char → List Char → Bool
  | [], _ => true
  | _ :: _, [] => false
  | c :: cs, d :: ds => c = d && listPrefix cs ds

/-- Does `pat` occur as a contiguous run inside `l`? -/
def strContainsAux (pat : List Char) : List Char → Bool
  | [] => listPrefix pat []
  | c :: t => listPrefix pat (c :: t) || strContainsAux pat t

/-- Python `pat in s` on strings: `pat` occurs as a contiguous substring. -/
def strContains (s pat : String) : Bool :=
  strContainsAux pat.data s.data

/-- Python `x in xs` on a list of strings. -/
def inList (k : String) : List String → Bool
  | [] => false
  | x :: rest => if x = k then true else inList k rest

/-- `map_field_name`: exact lookup of the lower-cased name, then first
substring match in table order, else the original name. -/
def map_field_name (field_name : String) : String :=
  let field_lower := pyLower field_name
  match List.lookup field_lower FIELD_MAPPING with
  | some target => target
  | none =>
    match FIELD_MAPPING.find? (fun kv => strContains field_lower kv.1) with
    | some kv => kv.2
    | none => field_name

/-- A canonical row: the `standardized` dict, keys in insertion order. -/
abbrev Row := List (String × String)

/-- Read a column of a row (`standardized[k]` / `standardized.get(k, "")`). -/
def getCol : Row → String → String
  | [], _ => ""
  | (k, v) :: rest, key => if k = key then v else getCol rest key

/-- Python dict assignment on a row. -/
def dictSet : Row → String → String → Row
  | [], k, v => [(k, v)]
  | (k', v') :: rest, k, v =>
    if k' = k then (k, v) :: rest else (k', v') :: dictSet rest k v

/-- `{header: "" for header in STANDARD_HEADERS}`. -/
def initRow : Row := STANDARD_HEADERS.map (fun h => (h, ""))

/-- The row produced for an empty input mapping: every canonical column
present with the empty-string default, except the five constant columns. -/
def stdEmptyRow : Row :=
  [("Item ID", ""), ("Item Name", ""), ("SKU", ""), ("Description", ""),
   ("Rate", ""), ("Source", "HD"), ("Reference ID", ""), ("Usage unit", ""),
   ("Purchase Rate", ""), ("Purchase Account", "HD"), ("Vendor", "HD"),
   ("Item Type", ""), ("Is Combo Product", ""), ("CF.Manufacturer", ""),
   ("CF.URL", ""), ("CF.Markup", "43%"), ("CF.Description", ""),
   ("CF.Supplier", "HD"), ("CF.Material", ""), ("CF.Cost", "")]

/-- The five constant assignments at the top of `standardize_record`. -/
def constPhase (row : Row) : Row :=
  dictSet (dictSet (dictSet (dictSet (dictSet row
    "Source" "HD") "Purchase Account" "HD") "Vendor" "HD")
    "CF.Markup" "43%") "CF.Supplier" "HD"

/-- `item_id` / `model_number` to "Item ID". -/
def itemIdPhase (record : Jobj) (row : Row) : Row :=
  match jget record "item_id" with
  | some v => dictSet row "Item ID" (pyStr v)
  | none =>
    match jget record "model_number" with
    | some v => dictSet row "Item ID" (pyStr v)
    | none => row

/-- `model_number` / `store_sku` to "SKU". -/
def skuPhase (record : Jobj) (row : Row) : Row :=
  match jget record "model_number" with
  | some v => dictSet row "SKU" (pyStr v)
  | none =>
    match jget record "store_sku" with
    | some v => dictSet row "SKU" (pyStr v)
    | none => row

/-- The nested `identifiers` fallback for "Item ID" and "SKU",
consulted only while the target column is still empty. -/
def identifiersPhase (record : Jobj) (row : Row) : Row :=
  match jget record "identifiers" with
  | some (.obj ids) =>
    let row :=
      if getCol row "Item ID" = "" then
        match jget ids "product_id" with
        | some v => dictSet row "Item ID" (pyStr v)
        | none =>
          match jget ids "item_id" with
          | some v => dictSet row "Item ID" (pyStr v)
          | none => row
      else row
    if getCol row "SKU" = "" then
      match jget ids "sku" with
      | some v => dictSet row "SKU" (pyStr v)
      | none =>
        match jget ids "model_number" with
        | some v => dictSet row "SKU" (pyStr v)
        | none => row
    else row
  | _ => row

/-- `title` / `name` to "Item Name". -/
def namePhase (record : Jobj) (row : Row) : Row :=
  match jget record "title" with
  | some v => dictSet row "Item Name" (pyStr v)
  | none =>
    match jget record "name" with
    | some v => dictSet row "Item Name" (pyStr v)
    | none => row

/-- The description fallback chain, mirrored into "CF.Description". -/
def descPhase (record : Jobj) (row : Row) : Row :=
  match truthyGet record "description" with
  | some v => dictSet (dictSet row "Description" (pyStr v)) "CF.Description" (pyStr v)
  | none =>
    match truthyGet record "details" with
    | some v => dictSet (dictSet row "Description" (pyStr v)) "CF.Description" (pyStr v)
    | none =>
      match truthyGet record "title" with
      | some v => dictSet (dictSet row "Description" (pyStr v)) "CF.Description" (pyStr v)
      | none =>
        if getCol row "Item Name" = "" then row
        else dictSet (dictSet row "Description" (getCol row "Item Name"))
          "CF.Description" (getCol row "Item Name")

/-- `extract_price` helpers: the character class `[\d,]`. -/
def priceDigit (c : Char) : Bool := c.isDigit || c = ','

/-- Try the pattern `\$?([\d,]+\.?\d*)` anchored at the head of `cs`,
returning group 1. -/
def matchPriceAt (cs : List Char) : Option (List Char) :=
  let cs1 := match cs with
    | c :: rest => if c = '$' then rest else c :: rest
    | [] => cs
  let run := cs1.takeWhile priceDigit
  if run.isEmpty then none
  else
    match cs1.drop run.length with
    | '.' :: rest2 => some (run ++ '.' :: rest2.takeWhile Char.isDigit)
    | _ => some run

/-- `re.search` for the price pattern: leftmost match wins. -/
def searchPrice : List Char → Option (List Char)
  | [] => none
  | c :: t =>
    match matchPriceAt (c :: t) with
    | some g => some g
    | none => searchPrice t

/-- `extract_price`: numbers via `str()`, strings via the regex search with
thousands separators stripped, anything else stringified.  (Python `bool`
passes `isinstance(value, int)`, but `str()` agrees with the fallthrough.) -/
def extract_price (value : JVal) : String :=
  match value with
  | .int n => toString n
  | .float s => s
  | .str s =>
    match searchPrice s.data with
    | some g => String.mk (g.filter (fun c => c ≠ ','))
    | none => s
  | v => pyStr v

/-- The nested `buybox_winner.price` value, when the `buybox_winner` key
holds a mapping with a `price` key. -/
def buyboxPrice (record : Jobj) : Option JVal :=
  match jget record "buybox_winner" with
  | some (.obj bw) => jget bw "price"
  | _ => none

/-- The `price_value` computed by the price step: `extract_price` of the
nested `buybox_winner.price` when that key exists (whatever it extracts to),
else `extract_price` of the top-level `price` when present. -/
def priceValue (record : Jobj) : Option String :=
  match buyboxPrice record with
  | some raw => some (extract_price raw)
  | none =>
    match jget record "price" with
    | some raw => some (extract_price raw)
    | none => none

/-- The price step: the three price columns are set to `price_value` only
when it is a truthy (non-empty) string. -/
def pricePhase (record : Jobj) (row : Row) : Row :=
  match priceValue record with
  | some v =>
    if v = "" then row
    else dictSet (dictSet (dictSet row "Rate" v) "Purchase Rate" v) "CF.Cost" v
  | none => row

/-- `brand` (if truthy) to "CF.Manufacturer". -/
def brandPhase (record : Jobj) (row : Row) : Row :=
  match truthyGet record "brand" with
  | some v => dictSet row "CF.Manufacturer" (pyStr v)
  | none => row

/-- `category` (if truthy), else first element of a non-empty `categories`
list, to "Item Type". -/
def categoryPhase (record : Jobj) (row : Row) : Row :=
  match truthyGet record "category" with
  | some v => dictSet row "Item Type" (pyStr v)
  | none =>
    match truthyGet record "categories" with
    | some (.arr (c :: _)) => dictSet row "Item Type" (pyStr c)
    | _ => row

/-- `link` (if truthy), else `url` (if truthy), to "CF.URL". -/
def urlPhase (record : Jobj) (row : Row) : Row :=
  match truthyGet record "link" with
  | some v => dictSet row "CF.URL" (pyStr v)
  | none =>
    match truthyGet record "url" with
    | some v => dictSet row "CF.URL" (pyStr v)
    | none => row

/-- One pass over a `specifications` list: entries whose `key` lower-cases to
`material`/`materials` set "CF.Material" (last match wins).  `spec['key'].lower()`
raises `AttributeError` when the key value is not a string. -/
def materialLoop : List JVal → Row → Except String Row
  | [], row => .ok row
  | spec :: rest, row =>
    match spec with
    | .obj kvs =>
      match jget kvs "key", jget kvs "value" with
      | some kval, some vval =>
        match kval with
        | .str ks =>
          if pyLower ks = "material" ∨ pyLower ks = "materials" then
            materialLoop rest (dictSet row "CF.Material" (pyStr vval))
          else materialLoop rest row
        | _ => .error "AttributeError: object has no attribute lower"
      | _, _ => materialLoop rest row
    | _ => materialLoop rest row

/-- The material-extraction step of `standardize_record`. -/
def materialPhase (record : Jobj) (row : Row) : Except String Row :=
  match jget record "specifications" with
  | some (.arr specs) => materialLoop specs row
  | _ => .ok row

/-- The fields consumed by the explicit rules, skipped by the residual pass. -/
def skipFields : List String :=
  ["identifiers", "title", "name", "description", "details", "price",
   "brand", "category", "categories", "link", "url", "specifications"]

/-- The residual pass: map each remaining field name; fill the mapped column
only when it is a standard header and still empty. -/
def residualLoop : List (String × JVal) → Row → Row
  | [], row => row
  | (f, v) :: rest, row =>
    if inList f skipFields then residualLoop rest row
    else
      if inList (map_field_name f) STANDARD_HEADERS then
        if getCol row (map_field_name f) = "" then
          residualLoop rest (dictSet row (map_field_name f) (pyStr v))
        else residualLoop rest row
      else residualLoop rest row

/-- All steps of `standardize_record` before the material extraction and the
residual pass, in source order. -/
def preResidual (record : Jobj) : Row :=
  let row := constPhase initRow
  let row := itemIdPhase record row
  let row := skuPhase record row
  let row := identifiersPhase record row
  let row := namePhase record row
  let row := descPhase record row
  let row := pricePhase record row
  let row := brandPhase record row
  let row := categoryPhase record row
  urlPhase record row

/-- `standardize_record`: the full normalization pipeline, in source order.
The only exception it can raise comes from `spec['key'].lower()` on a
non-string specification key. -/
def standardize_record (record : Jobj) : Except String Row :=
  match materialPhase record (preResidual record) with
  | .error e => .error e
  | .ok row => .ok (residualLoop record row)

/-- `generate_record_key` on a standardized row.  The `time.time()` suffix of
the last branch is not modelled (unreachable for standardized rows, whose
constant columns are non-empty). -/
def generate_record_key (record : Row) : String :=
  if getCol record "Item ID" ≠ "" then "id:" ++ getCol record "Item ID"
  else if getCol record "SKU" ≠ "" then "sku:" ++ getCol record "SKU"
  else if getCol record "Item Name" ≠ "" ∧ getCol record "Description" ≠ "" then
    "name_desc:" ++ pyLower (pyTrim (getCol record "Item Name")) ++ "_" ++
      String.mk ((pyLower (pyTrim (getCol record "Description"))).data.take 50)
  else
    let values := (record.filter
      (fun kv => kv.2 ≠ "" && inList kv.1 STANDARD_HEADERS)).map (fun kv => kv.2)
    if !values.isEmpty then "hash:" ++ String.intercalate "_" (values.take 5)
    else "unknown:"

/-! ## Document shape resolution and per-file processing -/

/-- Is this JSON value the string `k`?  (Python `==` between a string and a
non-string is `False`.) -/
def isStrEq (k : String) (v : JVal) : Bool :=
  match v with
  | .str s => s = k
  | _ => false

/-- Merge step of the product-document branch of `extract_product_data`:
attach a top-level `buybox_winner` (hoisting its `price`), else hoist the
price of a `buybox_winner` nested inside the product itself. -/
def productMerge (fields product : Jobj) : Jobj :=
  match jget fields "buybox_winner" with
  | some (.obj bw) =>
    let pd := match jget bw "price" with
      | some pr => dictSetJ product "price" pr
      | none => product
    dictSetJ pd "buybox_winner" (.obj bw)
  | _ =>
    match jget product "buybox_winner" with
    | some (.obj bw2) =>
      match jget bw2 "price" with
      | some pr => dictSetJ product "price" pr
      | none => product
    | _ => product

/-- The search-results-array branch: merge each element's nested `product`
with its `offers` (kept as a sub-key); skip elements yielding no data. -/
def searchResultsArr (results : List JVal) : List JVal :=
  results.foldr
    (fun r acc =>
      match r with
      | .obj rf =>
        let pd : Jobj := []
        let pd := match jget rf "product" with
          | some (.obj p) => dictUpdate pd p
          | _ => pd
        let pd := match jget rf "offers" with
          | some (.obj off) => dictSetJ pd "offers" (.obj off)
          | _ => pd
        if pd.isEmpty then acc else JVal.obj pd :: acc
      | _ => acc)
    []

/-- `extract_product_data`: shape-test the document in fixed priority order.
On non-dict documents Python's `'k' in json_data` is list/str membership and
the following subscript raises `TypeError`; both are modelled faithfully. -/
def extract_product_data (j : JVal) : Except String (Option (Jobj ⊕ List JVal)) :=
  match j with
  | .obj fields =>
    match jget fields "product" with
    | some (.obj product) => .ok (some (.inl (productMerge fields product)))
    | _ =>
      match jget fields "search_results" with
      | some (.arr results) =>
        let products := searchResultsArr results
        .ok (if products.isEmpty then none else some (.inr products))
      | some (.obj sr) =>
        (match jget sr "products" with
         | some (.arr ps) =>
           let products := ps.filter (fun p => match p with | .obj _ => true | _ => false)
           .ok (if products.isEmpty then none else some (.inr products))
         | _ =>
           match jget fields "products" with
           | some (.arr ps) => .ok (some (.inr ps))
           | _ => .ok none)
      | _ =>
        match jget fields "products" with
        | some (.arr ps) => .ok (some (.inr ps))
        | _ => .ok none
  | .arr xs =>
    if xs.any (isStrEq "product") then
      .error "TypeError: list indices must be integers or slices, not str"
    else if xs.any (isStrEq "search_results") then
      .error "TypeError: list indices must be integers or slices, not str"
    else if xs.any (isStrEq "products") then
      .error "TypeError: list indices must be integers or slices, not str"
    else .ok none
  | .str s =>
    if strContains s "product" then .error "TypeError: string indices must be integers"
    else if strContains s "search_results" then .error "TypeError: string indices must be integers"
    else if strContains s "products" then .error "TypeError: string indices must be integers"
    else .ok none
  | _ => .error "TypeError: argument of type is not iterable"

/-- Per-file accumulator of `process_json_file`: the rows kept, the record
and duplicate counters and the error list. -/
structure PFile where
  rows : List Row
  record_count : Nat
  duplicate_count : Nat
  errors : List String
deriving Repr, DecidableEq

/-- The empty per-file accumulator. -/
def emptyPFile : PFile := ⟨[], 0, 0, []⟩

/-- The set of record keys already seen in this run (`known_records`). -/
abbrev Known := List String

/-- One iteration of the standardize-and-deduplicate loop body, threading the
shared `known_records` keys. -/
def processItem (path : String) (item : JVal) (st : PFile × Known) : PFile × Known :=
  match item with
  | .obj rec =>
    match standardize_record rec with
    | .error e =>
      ({ st.1 with errors := st.1.errors ++ ["Error standardizing record in " ++ path ++ ": " ++ e] }, st.2)
    | .ok std =>
      let key := generate_record_key std
      if inList key st.2 then
        ({ st.1 with duplicate_count := st.1.duplicate_count + 1 }, st.2)
      else
        ({ st.1 with rows := st.1.rows ++ [std], record_count := st.1.record_count + 1 },
         key :: st.2)
  | _ => ({ st.1 with errors := st.1.errors ++ ["Skipped non-dictionary item in " ++ path] }, st.2)

/-- The fallback route of `process_json_file`: resolve the shape with
`extract_product_data`, else pass the whole document through, then run the
per-item loop. -/
def fallbackCore (path : String) (j : JVal) (known : Known) :
    Except String (PFile × Known) := do
  let pd ← extract_product_data j
  let items : List JVal := match pd with
    | none =>
      match j with
      | .obj _ => [j]
      | .arr xs => xs
      | _ => []
    | some (.inl p) => [JVal.obj p]
    | some (.inr ps) => ps
  .ok (items.foldl (fun st item => processItem path item st) (emptyPFile, known))

/-- The body of `process_json_file` on a decoded document: the direct Home
Depot product branch first (top-level `buybox_winner` attached, no nested
hoist), else the fallback route. -/
def processCore (path : String) (j : JVal) (known : Known) :
    Except String (PFile × Known) :=
  match j with
  | .obj fields =>
    match jget fields "product" with
    | some (.obj product) =>
      let product := match jget fields "buybox_winner" with
        | some (.obj bw) => dictSetJ product "buybox_winner" (.obj bw)
        | _ => product
      .ok (processItem path (.obj product) (emptyPFile, known))
    | _ => fallbackCore path j known
  | .arr xs =>
    if xs.any (isStrEq "product") then
      .error "TypeError: list indices must be integers or slices, not str"
    else fallbackCore path j known
  | .str s =>
    if strContains s "product" then .error "TypeError: string indices must be integers"
    else fallbackCore path j known
  | _ => .error "TypeError: argument of type is not iterable"

/-- `process_json_file`, with file reading and JSON decoding abstracted into
the `content` argument (`.error` = the bytes were not valid JSON).  A decode
failure is recorded as a parse error; any exception escaping the inner body
is recorded as a read error; neither aborts the run, and `known_records` is
left untouched on failure. -/
def process_json_file (path : String) (content : Except String JVal)
    (known : Known) : PFile × Known :=
  match content with
  | .error e =>
    ({ rows := [], record_count := 0, duplicate_count := 0,
       errors := ["Error parsing " ++ path ++ ": " ++ e] }, known)
  | .ok j =>
    match processCore path j known with
    | .ok r => r
    | .error e =>
      ({ rows := [], record_count := 0, duplicate_count := 0,
         errors := ["Error reading " ++ path ++ ": " ++ e] }, known)

/-- Run the per-file unit over every file, threading the shared
`known_records` keys when duplicate-skipping is on (`some`), and giving each
file a fresh empty dict when it is off (`none`), as in the source where
`known_records=None` makes `process_json_file` allocate its own.  The thread
pool's completion order is modelled as submission order: the claims proved
below hold for this representative interleaving. -/
def runFiles : List (String × Except String JVal) → Option Known →
    List PFile × Option Known
  | [], known => ([], known)
  | f :: rest, known =>
    let res := process_json_file f.1 f.2 (known.getD [])
    let tail := runFiles rest (known.map (fun _ => res.2))
    (res.1 :: tail.1, tail.2)

/-- The run statistics assembled by `combine_json_to_csv`
(`elapsed_time` is wall-clock time and is not modelled). -/
structure Stats where
  files_processed : Nat
  files_with_errors : Nat
  records_processed : Nat
  duplicates_skipped : Nat
  errors : List String
deriving Repr, DecidableEq

/-- A CSV record: the row's values in `STANDARD_HEADERS` order, as
`csv.DictWriter` emits them. -/
def rowValues (r : Row) : List String := STANDARD_HEADERS.map (getCol r)

/-- `combine_json_to_csv` on an already-resolved file list: statistics plus
the written CSV stream (header row, the deliberate blank row, then the data
rows).  An empty file list returns the input-resolution error and no stream
is written at all. -/
def combine_json_to_csv (files : List (String × Except String JVal))
    (skip_duplicates : Bool) : Stats × Option (List (List String)) :=
  if files.isEmpty then
    ({ files_processed := 0, files_with_errors := 0, records_processed := 0,
       duplicates_skipped := 0,
       errors := ["No JSON files found matching pattern"] }, none)
  else
    let results := (runFiles files (if skip_duplicates then some [] else none)).1
    ({ files_processed := results.length,
       files_with_errors := (results.filter (fun r => !r.errors.isEmpty)).length,
       records_processed := (results.map (·.record_count)).sum,
       duplicates_skipped := (results.map (·.duplicate_count)).sum,
       errors := (results.map (·.errors)).flatten },
     some (STANDARD_HEADERS :: (STANDARD_HEADERS.map (fun _ => "")) ::
       ((results.map (·.rows)).flatten).map rowValues))

/-! ## The web app's search-result enrichment (`run_conversion` in app.py) -/

/-- Can `v[:50]` be taken without raising?  (Python slices strings and
lists; the enrichment log lines slice the values they report.) -/
def sliceable : JVal → Bool
  | .str _ => true
  | .arr _ => true
  | _ => false

/-- `'description' not in product_data or not product_data['description']`. -/
def descMissing (pd : Jobj) : Bool :=
  match jget pd "description" with
  | some v => !truthy v
  | none => true

/-- The `specifications` probe of the enrichment: every entry whose `key`
equals `"Description"` with a truthy value is sliced for logging (a
`TypeError` when unsliceable) and fills `description` while it is missing. -/
def specsDescLoop : List JVal → Jobj → Except String Jobj
  | [], pd => .ok pd
  | spec :: rest, pd =>
    match spec with
    | .obj kvs =>
      match jget kvs "key", jget kvs "value" with
      | some kval, some vval =>
        if isStrEq "Description" kval && truthy vval then
          if sliceable vval then
            specsDescLoop rest (if descMissing pd then dictSetJ pd "description" vval else pd)
          else .error "TypeError: unsliceable value in log"
        else specsDescLoop rest pd
      | _, _ => specsDescLoop rest pd
    | _ => specsDescLoop rest pd

/-- The `offers.primary.price` hoist of the enrichment: copy the offer price
into the nested product mapping when present. -/
def offersStep (item pd : Jobj) : Jobj :=
  match jget item "offers" with
  | some (.obj off) =>
    match jget off "primary" with
    | some (.obj prim) =>
      match jget prim "price" with
      | some pr => dictSetJ pd "price" pr
      | none => pd
    | _ => pd
  | _ => pd

/-- The outer-item `description` copy: a truthy outer description overwrites
the product's own (the log line slices it, raising for unsliceable values). -/
def outerDescStep (item pd : Jobj) : Except String Jobj :=
  match truthyGet item "description" with
  | some dv =>
    if sliceable dv then Except.ok (dictSetJ pd "description" dv)
    else Except.error "TypeError: unsliceable value in log"
  | none => Except.ok pd

/-- The `snippet` probe: a truthy snippet is sliced for logging and fills
`description` while it is missing. -/
def snippetStep (item pd : Jobj) : Except String Jobj :=
  match truthyGet item "snippet" with
  | some sv =>
    if sliceable sv then
      Except.ok (if descMissing pd then dictSetJ pd "description" sv else pd)
    else Except.error "TypeError: unsliceable value in log"
  | none => Except.ok pd

/-- The `content_spec.description` probe. -/
def contentSpecStep (item pd : Jobj) : Except String Jobj :=
  match jget item "content_spec" with
  | some (.obj cs) =>
    match truthyGet cs "description" with
    | some dv =>
      if sliceable dv then
        Except.ok (if descMissing pd then dictSetJ pd "description" dv else pd)
      else Except.error "TypeError: unsliceable value in log"
    | none => Except.ok pd
  | _ => Except.ok pd

/-- The `specifications` probe. -/
def specsStep (item pd : Jobj) : Except String Jobj :=
  match jget item "specifications" with
  | some (.arr specs) => specsDescLoop specs pd
  | _ => Except.ok pd

/-- The final `title` fallback: while `description` is missing and the
product has a `title` key, copy the title (even a falsy one). -/
def titleStep (pd : Jobj) : Jobj :=
  if descMissing pd then
    match jget pd "title" with
    | some tv => dictSetJ pd "description" tv
    | none => pd
  else pd

/-- The per-item body of the search-results branch of `run_conversion` in
`app.py`, up to the point where the enriched mapping is handed to the
Standardizer: `none` when the item carries no nested `product` mapping (the
item is skipped entirely). -/
def enrich_search_item (item : Jobj) : Except String (Option Jobj) :=
  match jget item "product" with
  | some (.obj pd0) => do
    let pd := offersStep item pd0
    let pd ← outerDescStep item pd
    let pd ← snippetStep item pd
    let pd ← contentSpecStep item pd
    let pd ← specsStep item pd
    .ok (some (titleStep pd))
  | _ => .ok none

/-- The truthy `"Description"`-keyed value an enrichment probe reads off one
`specifications` entry, if any. -/
def specEntryDesc (spec : JVal) : Option JVal :=
  match spec with
  | .obj kvs =>
    match jget kvs "key", jget kvs "value" with
    | some kval, some vval =>
      if isStrEq "Description" kval && truthy vval then some vval else none
    | _, _ => none
  | _ => none

/-- The first `specifications` entry whose `key` equals `"Description"` with
a truthy value. -/
def specsFirstDescription (specs : List JVal) : Option JVal :=
  specs.findSome? specEntryDesc

/-- Every `specifications` entry the enrichment will slice for logging (key
`"Description"`, truthy value) is sliceable. -/
def specsSliceable (specs : List JVal) : Bool :=
  specs.all (fun spec =>
    match spec with
    | .obj kvs =>
      match jget kvs "key", jget kvs "value" with
      | some kval, some vval =>
        if isStrEq "Description" kval && truthy vval then sliceable vval else true
      | _, _ => true
    | _ => true)

/-- The truthy `content_spec.description` value of an item, if any. -/
def contentSpecProbe (item : Jobj) : Option JVal :=
  match jget item "content_spec" with
  | some (.obj cs) => truthyGet cs "description"
  | _ => none

/-- The first truthy `"Description"`-keyed `specifications` value of an
item, if any. -/
def specsProbe (item : Jobj) : Option JVal :=
  match jget item "specifications" with
  | some (.arr specs) => specsFirstDescription specs
  | _ => none

/-- Fill `description` from an optional probe hit. -/
def descFill (pd : Jobj) : Option JVal → Jobj
  | some v => dictSetJ pd "description" v
  | none => pd

/-- The probe order stated by the claim and spec §4.4 (modelled from the
spec's words, for comparison with `enrich_search_item`): sibling `snippet`,
nested `content_spec.description`, a `specifications` entry whose key equals
`"Description"`, then the product's own `title` — first truthy hit wins. -/
def claimDescriptionProbe (item pd0 : Jobj) : Option JVal :=
  match truthyGet item "snippet" with
  | some v => some v
  | none =>
    match contentSpecProbe item with
    | some v => some v
    | none =>
      match specsProbe item with
      | some v => some v
      | none => truthyGet pd0 "title"

/-- No value the enrichment's log lines will slice is unsliceable (so the
enrichment cannot raise on this item, given the outer description is not
truthy). -/
def probeSafe (item : Jobj) : Bool :=
  (match truthyGet item "snippet" with | some v => sliceable v | none => true) &&
  (match jget item "content_spec" with
   | some (.obj cs) =>
     match truthyGet cs "description" with | some v => sliceable v | none => true
   | _ => true) &&
  (match jget item "specifications" with
   | some (.arr specs) => specsSliceable specs
   | _ => true)

/-! ## The shared `known_records` check-and-insert region (concurrency) -/

/-- A two-worker interleaving model of the unsynchronized duplicate check in
`process_json_file`: each worker first evaluates `record_key in known_records`
(one dict operation), then, if the key was absent, runs
`known_records[record_key] = True` and appends its row (the second step).
The shared dict has no lock, so the two steps of one worker can interleave
with the other worker's. -/
structure RaceState where
  known : Known
  pc1 : Nat
  novel1 : Bool
  pc2 : Nat
  novel2 : Bool
  written : Nat
deriving Repr, DecidableEq

/-- The initial state: empty `known_records`, both workers before their
membership test, nothing written. -/
def raceInit : RaceState := ⟨[], 0, false, 0, false, 0⟩

/-- One atomic step of worker 1 (`t = true`) or worker 2 (`t = false`),
both holding the same record key. -/
def raceStep (key : String) (s : RaceState) (t : Bool) : RaceState :=
  if t then
    match s.pc1 with
    | 0 => { s with pc1 := 1, novel1 := !inList key s.known }
    | 1 =>
      if s.novel1 then
        { s with pc1 := 2, known := key :: s.known, written := s.written + 1 }
      else { s with pc1 := 2 }
    | _ => s
  else
    match s.pc2 with
    | 0 => { s with pc2 := 1, novel2 := !inList key s.known }
    | 1 =>
      if s.novel2 then
        { s with pc2 := 2, known := key :: s.known, written := s.written + 1 }
      else { s with pc2 := 2 }
    | _ => s

/-- Run a schedule (list of worker choices) from a state. -/
def raceRun (key : String) (sched : List Bool) (s : RaceState) : RaceState :=
  sched.foldl (raceStep key) s

/-! ## Re-standardization support -/

/-- A standardized row viewed again as an input mapping (Python passes the
output dict straight back into `standardize_record`; its values are
strings). -/
def toObj (r : Row) : Jobj := r.map (fun kv => (kv.1, JVal.str kv.2))

/-- What a second application of the Standardizer actually produces, as a
function of the first row (the amended idempotence claim): the canonical
key names miss the lowercase source keys, so every surviving column comes
back through the residual pass; "Reference ID", "Purchase Rate" and
"CF.Description" map to other columns there ("Item ID", "Rate" and
"Description" — filling them only when those are empty) and are themselves
reset to empty. -/
def reapplyRow (r : Row) : Row :=
  [("Item ID", if getCol r "Item ID" = "" then getCol r "Reference ID" else getCol r "Item ID"),
   ("Item Name", getCol r "Item Name"),
   ("SKU", getCol r "SKU"),
   ("Description", if getCol r "Description" = "" then getCol r "CF.Description" else getCol r "Description"),
   ("Rate", if getCol r "Rate" = "" then getCol r "Purchase Rate" else getCol r "Rate"),
   ("Source", "HD"),
   ("Reference ID", ""),
   ("Usage unit", getCol r "Usage unit"),
   ("Purchase Rate", ""),
   ("Purchase Account", "HD"),
   ("Vendor", "HD"),
   ("Item Type", getCol r "Item Type"),
   ("Is Combo Product", getCol r "Is Combo Product"),
   ("CF.Manufacturer", getCol r "CF.Manufacturer"),
   ("CF.URL", getCol r "CF.URL"),
   ("CF.Markup", "43%"),
   ("CF.Description", ""),
   ("CF.Supplier", "HD"),
   ("CF.Material", getCol r "CF.Material"),
   ("CF.Cost", getCol r "CF.Cost")]

/-! ## Basic lemmas about the dict operations -/

theorem getCol_dictSet_self (row : Row) (k v : String) :
    getCol (dictSet row k v) k = v := by
  induction row with
  | nil => simp [dictSet, getCol]
  | cons kv rest ih =>
    obtain ⟨k', v'⟩ := kv
    by_cases h : k' = k <;> simp [dictSet, getCol, h, ih]

theorem getCol_dictSet_ne (row : Row) (k v key : String) (h : key ≠ k) :
    getCol (dictSet row k v) key = getCol row key := by
  induction row with
  | nil => simp [dictSet, getCol, Ne.symm h]
  | cons kv rest ih =>
    obtain ⟨k', v'⟩ := kv
    by_cases hk : k' = k
    · subst hk
      simp [dictSet, getCol, Ne.symm h]
    · simp [dictSet, getCol, hk, ih]

theorem map_fst_dictSet (row : Row) (k v : String)
    (h : inList k (row.map Prod.fst) = true) :
    (dictSet row k v).map Prod.fst = row.map Prod.fst := by
  induction row with
  | nil => simp [inList] at h
  | cons kv rest ih =>
    obtain ⟨k', v'⟩ := kv
    by_cases hk : k' = k
    · simp [dictSet, hk]
    · simp [inList, hk] at h
      simp [dictSet, hk, ih h]

theorem jget_dictSetJ_ne (o : Jobj) (k : String) (v : JVal) (key : String)
    (h : key ≠ k) : jget (dictSetJ o k v) key = jget o key := by
  induction o with
  | nil => simp [dictSetJ, jget, Ne.symm h]
  | cons kv rest ih =>
    obtain ⟨k', v'⟩ := kv
    by_cases hk : k' = k
    · subst hk
      simp [dictSetJ, jget, Ne.symm h]
    · simp [dictSetJ, jget, hk, ih]

theorem jget_dictSetJ_self (o : Jobj) (k : String) (v : JVal) :
    jget (dictSetJ o k v) k = some v := by
  induction o with
  | nil => simp [dictSetJ, jget]
  | cons kv rest ih =>
    obtain ⟨k', v'⟩ := kv
    by_cases h : k' = k <;> simp [dictSetJ, jget, h, ih]

/-! ## Claims about the Price Parser and the Field Mapper -/

theorem takeWhile_nil_of_all_false {p : Char → Bool} (l : List Char)
    (h : ∀ c ∈ l, p c = false) : l.takeWhile p = [] := by
  cases l with
  | nil => rfl
  | cons c t => simp [List.takeWhile, h c (by simp)]

theorem matchPriceAt_none (cs : List Char)
    (h : ∀ c ∈ cs, priceDigit c = false) : matchPriceAt cs = none := by
  match cs with
  | [] => rfl
  | c :: rest =>
    by_cases hc : c = '$'
    · subst hc
      simp [matchPriceAt,
        takeWhile_nil_of_all_false rest (fun d hd => h d (by simp [hd]))]
    · simp [matchPriceAt, hc, takeWhile_nil_of_all_false (c :: rest) h]

theorem searchPrice_none (cs : List Char)
    (h : ∀ c ∈ cs, priceDigit c = false) : searchPrice cs = none := by
  induction cs with
  | nil => rfl
  | cons c t ih =>
    have hm := matchPriceAt_none (c :: t) h
    simp [searchPrice, hm]
    exact ih (fun d hd => h d (by simp [hd]))

/-- C4: `extract_price` maps ints and floats to their string form; a string
with a price-pattern match yields the matched group with commas removed
(`"$1,234.56"` gives `"1234.56"`); a string with no match — in particular one
with no digit or comma at all, such as `"N/A"` — and every other input type
comes back as its string form, and no failure is ever raised (the function
is total). -/
theorem extract_price_spec :
    (∀ n : Int, extract_price (.int n) = toString n) ∧
    (∀ s : String, extract_price (.float s) = s) ∧
    extract_price (.str "$1,234.56") = "1234.56" ∧
    (∀ s : String, ∀ g, searchPrice s.data = some g →
      extract_price (.str s) = String.mk (g.filter (fun c => c ≠ ','))) ∧
    (∀ s : String, searchPrice s.data = none → extract_price (.str s) = s) ∧
    (∀ s : String, (∀ c ∈ s.data, priceDigit c = false) → extract_price (.str s) = s) ∧
    extract_price (.str "N/A") = "N/A" ∧
    extract_price .null = "None" ∧
    (∀ b, extract_price (.bool b) = pyStr (.bool b)) ∧
    (∀ xs, extract_price (.arr xs) = pyStr (.arr xs)) ∧
    (∀ kvs, extract_price (.obj kvs) = pyStr (.obj kvs)) := by
  refine ⟨fun n => rfl, fun s => rfl, by decide, ?_, ?_, ?_, by decide, rfl,
    fun b => rfl, fun xs => rfl, fun kvs => rfl⟩
  · intro s g h
    simp [extract_price, h]
  · intro s h
    simp [extract_price, h]
  · intro s h
    simp [extract_price, searchPrice_none s.data h]

theorem extract_price_spec_witness :
    extract_price (.str "hello") = "hello" ∧ extract_price (.int 7) = "7" :=
  ⟨extract_price_spec.2.2.2.2.2.1 "hello" (by decide), extract_price_spec.1 7⟩

/-- C5: `map_field_name` lower-cases its input; an exact hit in the mapping
table returns that entry's canonical name; otherwise the first entry (in
definition order) whose key is a substring of the lowered input wins, so
`"subcategory"` resolves to the canonical name of `"category"`
(`"Item Type"`); with no substring hit the original name comes back
unchanged. -/
theorem map_field_name_spec :
    (∀ s t, List.lookup (pyLower s) FIELD_MAPPING = some t → map_field_name s = t) ∧
    (∀ s kv, List.lookup (pyLower s) FIELD_MAPPING = none →
      FIELD_MAPPING.find? (fun e => strContains (pyLower s) e.1) = some kv →
      map_field_name s = kv.2) ∧
    (∀ s, List.lookup (pyLower s) FIELD_MAPPING = none →
      FIELD_MAPPING.find? (fun e => strContains (pyLower s) e.1) = none →
      map_field_name s = s) ∧
    map_field_name "subcategory" = "Item Type" ∧
    List.lookup "subcategory" FIELD_MAPPING = none ∧
    List.lookup "category" FIELD_MAPPING = some "Item Type" ∧
    map_field_name "SubCategory" = "Item Type" ∧
    map_field_name "Price" = "Rate" ∧
    map_field_name "zzz" = "zzz" := by
  refine ⟨?_, ?_, ?_, by decide, by decide, by decide, by decide, by decide, by decide⟩
  · intro s t h
    simp [map_field_name, h]
  · intro s kv h1 h2
    simp [map_field_name, h1, h2]
  · intro s h1 h2
    simp [map_field_name, h1, h2]

theorem map_field_name_spec_witness :
    map_field_name "subcategory" = "Item Type" :=
  map_field_name_spec.2.1 "subcategory" ("category", "Item Type")
    (by decide) (by decide)

/-- C10: any field name that is no exact (lower-cased) key of the table but
whose lower-cased form contains `"id"` — such as `"width"` or `"video"` —
maps to `"Item ID"`, because `("id", "Item ID")` is the first table entry
and the substring scan returns the first hit in definition order. -/
theorem map_field_name_id_substring :
    (∀ s, List.lookup (pyLower s) FIELD_MAPPING = none →
      strContains (pyLower s) "id" = true → map_field_name s = "Item ID") ∧
    map_field_name "width" = "Item ID" ∧
    map_field_name "video" = "Item ID" ∧
    List.lookup "width" FIELD_MAPPING = none ∧
    List.lookup "video" FIELD_MAPPING = none := by
  refine ⟨?_, by decide, by decide, by decide, by decide⟩
  intro s h1 h2
  simp only [map_field_name, h1]
  rw [show FIELD_MAPPING = ("id", "Item ID") :: FIELD_MAPPING.tail from rfl]
  rw [List.find?_cons_of_pos _ (by simpa using h2)]

theorem map_field_name_id_substring_witness :
    map_field_name "width" = "Item ID" :=
  map_field_name_id_substring.1 "width" (by decide) (by decide)

/-! ## Column-preservation lemmas for the standardization phases -/

theorem itemIdPhase_ne (record : Jobj) (row : Row) (k : String)
    (h : k ≠ "Item ID") : getCol (itemIdPhase record row) k = getCol row k := by
  unfold itemIdPhase
  cases jget record "item_id" with
  | some v => exact getCol_dictSet_ne _ _ _ _ h
  | none =>
    cases jget record "model_number" with
    | some v => exact getCol_dictSet_ne _ _ _ _ h
    | none => rfl

theorem skuPhase_ne (record : Jobj) (row : Row) (k : String)
    (h : k ≠ "SKU") : getCol (skuPhase record row) k = getCol row k := by
  unfold skuPhase
  cases jget record "model_number" with
  | some v => exact getCol_dictSet_ne _ _ _ _ h
  | none =>
    cases jget record "store_sku" with
    | some v => exact getCol_dictSet_ne _ _ _ _ h
    | none => rfl

theorem identifiersPhase_ne (record : Jobj) (row : Row) (k : String)
    (h1 : k ≠ "Item ID") (h2 : k ≠ "SKU") :
    getCol (identifiersPhase record row) k = getCol row k := by
  unfold identifiersPhase
  cases jget record "identifiers" with
  | none => rfl
  | some v =>
    cases v with
    | obj ids =>
      have hsku : ∀ r : Row, getCol r k = getCol row k →
          getCol (if getCol r "SKU" = "" then
            match jget ids "sku" with
            | some v => dictSet r "SKU" (pyStr v)
            | none =>
              match jget ids "model_number" with
              | some v => dictSet r "SKU" (pyStr v)
              | none => r
          else r) k = getCol row k := by
        intro r hr
        split
        · cases jget ids "sku" with
          | some v => rw [getCol_dictSet_ne _ _ _ _ h2]; exact hr
          | none =>
            cases jget ids "model_number" with
            | some v => rw [getCol_dictSet_ne _ _ _ _ h2]; exact hr
            | none => exact hr
        · exact hr
      apply hsku
      split
      · cases jget ids "product_id" with
        | some v => exact getCol_dictSet_ne _ _ _ _ h1
        | none =>
          cases jget ids "item_id" with
          | some v => exact getCol_dictSet_ne _ _ _ _ h1
          | none => rfl
      · rfl
    | null => rfl
    | bool b => rfl
    | int n => rfl
    | float s => rfl
    | str s => rfl
    | arr xs => rfl

theorem namePhase_ne (record : Jobj) (row : Row) (k : String)
    (h : k ≠ "Item Name") : getCol (namePhase record row) k = getCol row k := by
  unfold namePhase
  cases jget record "title" with
  | some v => exact getCol_dictSet_ne _ _ _ _ h
  | none =>
    cases jget record "name" with
    | some v => exact getCol_dictSet_ne _ _ _ _ h
    | none => rfl

theorem descPhase_ne (record : Jobj) (row : Row) (k : String)
    (h1 : k ≠ "Description") (h2 : k ≠ "CF.Description") :
    getCol (descPhase record row) k = getCol row k := by
  unfold descPhase
  split
  · rw [getCol_dictSet_ne _ _ _ _ h2, getCol_dictSet_ne _ _ _ _ h1]
  · split
    · rw [getCol_dictSet_ne _ _ _ _ h2, getCol_dictSet_ne _ _ _ _ h1]
    · split
      · rw [getCol_dictSet_ne _ _ _ _ h2, getCol_dictSet_ne _ _ _ _ h1]
      · split
        · rfl
        · rw [getCol_dictSet_ne _ _ _ _ h2, getCol_dictSet_ne _ _ _ _ h1]

theorem pricePhase_ne (record : Jobj) (row : Row) (k : String)
    (h1 : k ≠ "Rate") (h2 : k ≠ "Purchase Rate") (h3 : k ≠ "CF.Cost") :
    getCol (pricePhase record row) k = getCol row k := by
  unfold pricePhase
  split
  · split
    · rfl
    · rw [getCol_dictSet_ne _ _ _ _ h3, getCol_dictSet_ne _ _ _ _ h2,
        getCol_dictSet_ne _ _ _ _ h1]
  · rfl

theorem brandPhase_ne (record : Jobj) (row : Row) (k : String)
    (h : k ≠ "CF.Manufacturer") : getCol (brandPhase record row) k = getCol row k := by
  unfold brandPhase
  cases truthyGet record "brand" with
  | some v => exact getCol_dictSet_ne _ _ _ _ h
  | none => rfl

theorem categoryPhase_ne (record : Jobj) (row : Row) (k : String)
    (h : k ≠ "Item Type") : getCol (categoryPhase record row) k = getCol row k := by
  unfold categoryPhase
  cases truthyGet record "category" with
  | some v => exact getCol_dictSet_ne _ _ _ _ h
  | none =>
    cases hv : truthyGet record "categories" with
    | none => rfl
    | some v =>
      cases v with
      | arr xs =>
        cases xs with
        | nil => rfl
        | cons c rest => exact getCol_dictSet_ne _ _ _ _ h
      | null => rfl
      | bool b => rfl
      | int n => rfl
      | float s => rfl
      | str s => rfl
      | obj kvs => rfl

theorem urlPhase_ne (record : Jobj) (row : Row) (k : String)
    (h : k ≠ "CF.URL") : getCol (urlPhase record row) k = getCol row k := by
  unfold urlPhase
  cases truthyGet record "link" with
  | some v => exact getCol_dictSet_ne _ _ _ _ h
  | none =>
    cases truthyGet record "url" with
    | some v => exact getCol_dictSet_ne _ _ _ _ h
    | none => rfl

theorem materialLoop_ok_ne (specs : List JVal) (row row' : Row) (k : String)
    (h : k ≠ "CF.Material") (hm : materialLoop specs row = .ok row') :
    getCol row' k = getCol row k := by
  induction specs generalizing row with
  | nil =>
    simp only [materialLoop] at hm
    cases hm
    rfl
  | cons spec rest ih =>
    simp only [materialLoop] at hm
    split at hm
    · split at hm
      · split at hm
        · split at hm
          · rw [ih _ hm, getCol_dictSet_ne _ _ _ _ h]
          · exact ih row hm
        · cases hm
      · exact ih row hm
    · exact ih row hm

theorem materialPhase_ok_ne (record : Jobj) (row row' : Row) (k : String)
    (h : k ≠ "CF.Material") (hm : materialPhase record row = .ok row') :
    getCol row' k = getCol row k := by
  unfold materialPhase at hm
  revert hm
  cases jget record "specifications" with
  | none => intro hm; cases hm; rfl
  | some v =>
    cases v with
    | arr specs => exact materialLoop_ok_ne specs row row' k h
    | null => intro hm; cases hm; rfl
    | bool b => intro hm; cases hm; rfl
    | int n => intro hm; cases hm; rfl
    | float s => intro hm; cases hm; rfl
    | str s => intro hm; cases hm; rfl
    | obj o => intro hm; cases hm; rfl

theorem residualLoop_nonempty (fields : List (String × JVal)) (row : Row)
    (k : String) (h : getCol row k ≠ "") :
    getCol (residualLoop fields row) k = getCol row k := by
  induction fields generalizing row with
  | nil => rfl
  | cons fv rest ih =>
    obtain ⟨f, v⟩ := fv
    unfold residualLoop
    split
    · exact ih row h
    · split
      · split
        next hempty =>
          have hne : k ≠ map_field_name f := by
            intro he
            rw [he] at h
            exact h hempty
          rw [ih _ (by rw [getCol_dictSet_ne _ _ _ _ hne]; exact h),
            getCol_dictSet_ne _ _ _ _ hne]
        next _ => exact ih row h
      · exact ih row h

/-! ## Key-set preservation: every phase keeps the 20 canonical columns -/

theorem map_fst_dictSet_std (row : Row) (k v : String)
    (h : row.map Prod.fst = STANDARD_HEADERS)
    (hk : inList k STANDARD_HEADERS = true) :
    (dictSet row k v).map Prod.fst = STANDARD_HEADERS := by
  rw [map_fst_dictSet row k v (by rw [h]; exact hk), h]

theorem keys_opt2 (row : Row) (k : String) (o1 o2 : Option JVal)
    (h : row.map Prod.fst = STANDARD_HEADERS)
    (hk : inList k STANDARD_HEADERS = true) :
    (match o1 with
     | some v => dictSet row k (pyStr v)
     | none =>
       match o2 with
       | some v => dictSet row k (pyStr v)
       | none => row).map Prod.fst = STANDARD_HEADERS := by
  split
  · exact map_fst_dictSet_std _ _ _ h hk
  · split
    · exact map_fst_dictSet_std _ _ _ h hk
    · exact h

theorem constPhase_keys (row : Row) (h : row.map Prod.fst = STANDARD_HEADERS) :
    (constPhase row).map Prod.fst = STANDARD_HEADERS := by
  unfold constPhase
  refine map_fst_dictSet_std _ _ _ ?_ (by decide)
  refine map_fst_dictSet_std _ _ _ ?_ (by decide)
  refine map_fst_dictSet_std _ _ _ ?_ (by decide)
  refine map_fst_dictSet_std _ _ _ ?_ (by decide)
  exact map_fst_dictSet_std _ _ _ h (by decide)

theorem itemIdPhase_keys (record : Jobj) (row : Row)
    (h : row.map Prod.fst = STANDARD_HEADERS) :
    (itemIdPhase record row).map Prod.fst = STANDARD_HEADERS :=
  keys_opt2 row "Item ID" (jget record "item_id") (jget record "model_number") h (by decide)

theorem skuPhase_keys (record : Jobj) (row : Row)
    (h : row.map Prod.fst = STANDARD_HEADERS) :
    (skuPhase record row).map Prod.fst = STANDARD_HEADERS :=
  keys_opt2 row "SKU" (jget record "model_number") (jget record "store_sku") h (by decide)

theorem identifiersPhase_keys (record : Jobj) (row : Row)
    (h : row.map Prod.fst = STANDARD_HEADERS) :
    (identifiersPhase record row).map Prod.fst = STANDARD_HEADERS := by
  unfold identifiersPhase
  split
  next ids _ =>
    have h1 : ∀ r1 : Row, r1.map Prod.fst = STANDARD_HEADERS →
        (if getCol r1 "SKU" = "" then
          match jget ids "sku" with
          | some v => dictSet r1 "SKU" (pyStr v)
          | none =>
            match jget ids "model_number" with
            | some v => dictSet r1 "SKU" (pyStr v)
            | none => r1
         else r1).map Prod.fst = STANDARD_HEADERS := by
      intro r1 hr1
      split
      · exact keys_opt2 r1 "SKU" _ _ hr1 (by decide)
      · exact hr1
    apply h1
    split
    · exact keys_opt2 row "Item ID" _ _ h (by decide)
    · exact h
  next => exact h

theorem namePhase_keys (record : Jobj) (row : Row)
    (h : row.map Prod.fst = STANDARD_HEADERS) :
    (namePhase record row).map Prod.fst = STANDARD_HEADERS :=
  keys_opt2 row "Item Name" (jget record "title") (jget record "name") h (by decide)

theorem descPhase_keys (record : Jobj) (row : Row)
    (h : row.map Prod.fst = STANDARD_HEADERS) :
    (descPhase record row).map Prod.fst = STANDARD_HEADERS := by
  unfold descPhase
  split
  · exact map_fst_dictSet_std _ _ _ (map_fst_dictSet_std _ _ _ h (by decide)) (by decide)
  · split
    · exact map_fst_dictSet_std _ _ _ (map_fst_dictSet_std _ _ _ h (by decide)) (by decide)
    · split
      · exact map_fst_dictSet_std _ _ _ (map_fst_dictSet_std _ _ _ h (by decide)) (by decide)
      · split
        · exact h
        · exact map_fst_dictSet_std _ _ _ (map_fst_dictSet_std _ _ _ h (by decide)) (by decide)

theorem pricePhase_keys (record : Jobj) (row : Row)
    (h : row.map Prod.fst = STANDARD_HEADERS) :
    (pricePhase record row).map Prod.fst = STANDARD_HEADERS := by
  unfold pricePhase
  split
  · split
    · exact h
    · exact map_fst_dictSet_std _ _ _
        (map_fst_dictSet_std _ _ _ (map_fst_dictSet_std _ _ _ h (by decide)) (by decide))
        (by decide)
  · exact h

theorem brandPhase_keys (record : Jobj) (row : Row)
    (h : row.map Prod.fst = STANDARD_HEADERS) :
    (brandPhase record row).map Prod.fst = STANDARD_HEADERS := by
  unfold brandPhase
  split
  · exact map_fst_dictSet_std _ _ _ h (by decide)
  · exact h

theorem categoryPhase_keys (record : Jobj) (row : Row)
    (h : row.map Prod.fst = STANDARD_HEADERS) :
    (categoryPhase record row).map Prod.fst = STANDARD_HEADERS := by
  unfold categoryPhase
  split
  · exact map_fst_dictSet_std _ _ _ h (by decide)
  · split
    · exact map_fst_dictSet_std _ _ _ h (by decide)
    · exact h

theorem urlPhase_keys (record : Jobj) (row : Row)
    (h : row.map Prod.fst = STANDARD_HEADERS) :
    (urlPhase record row).map Prod.fst = STANDARD_HEADERS := by
  unfold urlPhase
  split
  · exact map_fst_dictSet_std _ _ _ h (by decide)
  · split
    · exact map_fst_dictSet_std _ _ _ h (by decide)
    · exact h

theorem materialLoop_keys (specs : List JVal) (row row' : Row)
    (h : row.map Prod.fst = STANDARD_HEADERS)
    (hm : materialLoop specs row = .ok row') :
    row'.map Prod.fst = STANDARD_HEADERS := by
  induction specs generalizing row with
  | nil =>
    simp only [materialLoop] at hm
    cases hm
    exact h
  | cons spec rest ih =>
    simp only [materialLoop] at hm
    split at hm
    · split at hm
      · split at hm
        · split at hm
          · exact ih _ (map_fst_dictSet_std _ _ _ h (by decide)) hm
          · exact ih row h hm
        · cases hm
      · exact ih row h hm
    · exact ih row h hm

theorem materialPhase_keys (record : Jobj) (row row' : Row)
    (h : row.map Prod.fst = STANDARD_HEADERS)
    (hm : materialPhase record row = .ok row') :
    row'.map Prod.fst = STANDARD_HEADERS := by
  unfold materialPhase at hm
  split at hm
  · exact materialLoop_keys _ row row' h hm
  · cases hm; exact h

theorem residualLoop_keys (fields : List (String × JVal)) (row : Row)
    (h : row.map Prod.fst = STANDARD_HEADERS) :
    (residualLoop fields row).map Prod.fst = STANDARD_HEADERS := by
  induction fields generalizing row with
  | nil => exact h
  | cons fv rest ih =>
    obtain ⟨f, v⟩ := fv
    unfold residualLoop
    split
    · exact ih row h
    · split
      next hstd =>
        split
        · exact ih _ (map_fst_dictSet_std _ _ _ h hstd)
        · exact ih row h
      next => exact ih row h

/-! ## Destructuring `standardize_record` and the residual no-fill lemma -/

theorem standardize_record_ok (record : Jobj) (row : Row)
    (h : standardize_record record = .ok row) :
    ∃ rowM, materialPhase record (preResidual record) = .ok rowM ∧
      row = residualLoop record rowM := by
  simp only [standardize_record] at h
  split at h
  · cases h
  next rowM heq =>
    cases h
    exact ⟨rowM, heq, rfl⟩

theorem residualLoop_no_fill (fields : List (String × JVal)) (row : Row)
    (k : String) (h : getCol row k = "")
    (hf : ∀ f jv, (f, jv) ∈ fields → inList f skipFields = false →
      map_field_name f ≠ k) :
    getCol (residualLoop fields row) k = "" := by
  induction fields generalizing row with
  | nil => exact h
  | cons fv rest ih =>
    obtain ⟨f, v⟩ := fv
    have hf' : ∀ f' jv', (f', jv') ∈ rest → inList f' skipFields = false →
        map_field_name f' ≠ k :=
      fun f' jv' hm hs => hf f' jv' (List.mem_cons_of_mem _ hm) hs
    unfold residualLoop
    split
    · exact ih row h hf'
    next hskip =>
      have hf0 : map_field_name f ≠ k :=
        hf f v (List.mem_cons_self _ _) (Bool.not_eq_true _ ▸ hskip)
      split
      · split
        · exact ih _ (by rw [getCol_dictSet_ne _ _ _ _ (Ne.symm hf0)]; exact h) hf'
        · exact ih row h hf'
      · exact ih row h hf'

theorem preResidual_ne (record : Jobj) (k : String)
    (hk : k ≠ "Item ID" ∧ k ≠ "SKU" ∧ k ≠ "Item Name" ∧ k ≠ "Description" ∧
      k ≠ "CF.Description" ∧ k ≠ "Rate" ∧ k ≠ "Purchase Rate" ∧
      k ≠ "CF.Cost" ∧ k ≠ "CF.Manufacturer" ∧ k ≠ "Item Type" ∧ k ≠ "CF.URL") :
    getCol (preResidual record) k = getCol (constPhase initRow) k := by
  obtain ⟨h1, h2, h3, h4, h5, h6, h7, h8, h9, h10, h11⟩ := hk
  unfold preResidual
  rw [urlPhase_ne _ _ _ h11, categoryPhase_ne _ _ _ h10, brandPhase_ne _ _ _ h9,
    pricePhase_ne _ _ _ h6 h7 h8, descPhase_ne _ _ _ h4 h5, namePhase_ne _ _ _ h3,
    identifiersPhase_ne _ _ _ h1 h2, skuPhase_ne _ _ _ h2, itemIdPhase_ne _ _ _ h1]

theorem preResidual_keys (record : Jobj) :
    (preResidual record).map Prod.fst = STANDARD_HEADERS := by
  unfold preResidual
  exact urlPhase_keys _ _ (categoryPhase_keys _ _ (brandPhase_keys _ _
    (pricePhase_keys _ _ (descPhase_keys _ _ (namePhase_keys _ _
    (identifiersPhase_keys _ _ (skuPhase_keys _ _ (itemIdPhase_keys _ _
    (constPhase_keys _ (by decide))))))))))

/-! ## Claims C2 and C1: the Standardizer's invariants and price rule -/

/-- C2 (counterexample): `standardize_record` does not return a row for
every input mapping — a `specifications` entry with a non-string `key`
makes `spec['key'].lower()` raise, so the call errors instead. -/
theorem standardize_record_total_counterexample :
    standardize_record
      [("specifications", JVal.arr [JVal.obj [("key", JVal.int 1), ("value", JVal.int 2)]])]
      = Except.error "AttributeError: object has no attribute lower" := by decide

/-- C2 (amended): whenever `standardize_record` returns a row (it raises
precisely when a specifications entry with both `key` and `value` has a
non-string key), the row's key list is exactly the 20 canonical headers,
each value a string defaulting to `""` (witness the empty input), and the
five constant columns always carry `Source = "HD"`,
`Purchase Account = "HD"`, `Vendor = "HD"`, `CF.Markup = "43%"`,
`CF.Supplier = "HD"`. -/
theorem standardize_record_invariants :
    (∀ (record : Jobj) (row : Row), standardize_record record = .ok row →
      row.map Prod.fst = STANDARD_HEADERS ∧
      getCol row "Source" = "HD" ∧ getCol row "Purchase Account" = "HD" ∧
      getCol row "Vendor" = "HD" ∧ getCol row "CF.Markup" = "43%" ∧
      getCol row "CF.Supplier" = "HD") ∧
    standardize_record [] = .ok stdEmptyRow := by
  refine ⟨?_, by decide⟩
  intro record row h
  obtain ⟨rowM, hmat, hres⟩ := standardize_record_ok record row h
  have hMkeys : rowM.map Prod.fst = STANDARD_HEADERS :=
    materialPhase_keys record _ rowM (preResidual_keys record) hmat
  have main : ∀ k : String,
      (k ≠ "Item ID" ∧ k ≠ "SKU" ∧ k ≠ "Item Name" ∧ k ≠ "Description" ∧
        k ≠ "CF.Description" ∧ k ≠ "Rate" ∧ k ≠ "Purchase Rate" ∧
        k ≠ "CF.Cost" ∧ k ≠ "CF.Manufacturer" ∧ k ≠ "Item Type" ∧ k ≠ "CF.URL") →
      k ≠ "CF.Material" →
      getCol (constPhase initRow) k ≠ "" →
      getCol row k = getCol (constPhase initRow) k := by
    intro k hk hkm hne
    have hpre := preResidual_ne record k hk
    have hM : getCol rowM k = getCol (constPhase initRow) k := by
      rw [materialPhase_ok_ne _ _ _ _ hkm hmat]
      exact hpre
    rw [hres, residualLoop_nonempty _ _ _ (by rw [hM]; exact hne)]
    exact hM
  refine ⟨?_, ?_, ?_, ?_, ?_, ?_⟩
  · rw [hres]
    exact residualLoop_keys record rowM hMkeys
  · exact (main "Source" (by decide) (by decide) (by decide)).trans (by decide)
  · exact (main "Purchase Account" (by decide) (by decide) (by decide)).trans (by decide)
  · exact (main "Vendor" (by decide) (by decide) (by decide)).trans (by decide)
  · exact (main "CF.Markup" (by decide) (by decide) (by decide)).trans (by decide)
  · exact (main "CF.Supplier" (by decide) (by decide) (by decide)).trans (by decide)

theorem standardize_record_invariants_witness :
    stdEmptyRow.map Prod.fst = STANDARD_HEADERS ∧
    getCol stdEmptyRow "Source" = "HD" ∧
    getCol stdEmptyRow "Purchase Account" = "HD" ∧
    getCol stdEmptyRow "Vendor" = "HD" ∧
    getCol stdEmptyRow "CF.Markup" = "43%" ∧
    getCol stdEmptyRow "CF.Supplier" = "HD" :=
  standardize_record_invariants.1 [] stdEmptyRow (by decide)

/-- C1 (counterexample): a record whose nested `buybox_winner.price` is the
empty string while a top-level `price` of `"$5"` is present: the code does
not fall back (the fallback fires only when `price_value is None`), so all
three price columns stay empty instead of `extract_price "$5" = "5"`. -/
theorem standardize_price_rule_counterexample :
    (standardize_record
        [("buybox_winner", JVal.obj [("price", JVal.str "")]),
         ("price", JVal.str "$5")]).map
      (fun r => (getCol r "Rate", getCol r "Purchase Rate", getCol r "CF.Cost"))
      = Except.ok ("", "", "") ∧
    extract_price (JVal.str "$5") = "5" := by decide

/-- C1 (amended): the price step computes `price_value` as `extract_price`
of the nested `buybox_winner.price` whenever that key exists — even when the
extraction is empty — and falls back to `extract_price` of the top-level
`price` only when the nested path is absent.  When the chosen value is
non-empty all of Rate, Purchase Rate and CF.Cost equal it; when it is empty
or no price path exists the price step leaves the three columns empty, and
they stay empty unless the residual pass fills them from some other field
that maps to one of them. -/
theorem standardize_price_rule :
    (∀ (record : Jobj) (pv : JVal), buyboxPrice record = some pv →
      priceValue record = some (extract_price pv)) ∧
    (∀ record : Jobj, buyboxPrice record = none →
      priceValue record = (jget record "price").map extract_price) ∧
    (∀ (record : Jobj) (row : Row), standardize_record record = .ok row →
      (∀ v, priceValue record = some v → v ≠ "" →
        getCol row "Rate" = v ∧ getCol row "Purchase Rate" = v ∧
        getCol row "CF.Cost" = v) ∧
      ((priceValue record = none ∨ priceValue record = some "") →
        (∀ f jv, (f, jv) ∈ record → inList f skipFields = false →
          map_field_name f ≠ "Rate" ∧ map_field_name f ≠ "Purchase Rate" ∧
          map_field_name f ≠ "CF.Cost") →
        getCol row "Rate" = "" ∧ getCol row "Purchase Rate" = "" ∧
        getCol row "CF.Cost" = "")) := by
  refine ⟨?_, ?_, ?_⟩
  · intro record pv h
    simp [priceValue, h]
  · intro record h
    simp only [priceValue, h]
    cases jget record "price" <;> simp
  · intro record row h
    obtain ⟨rowM, hmat, hres⟩ := standardize_record_ok record row h
    constructor
    · intro v hv hne
      have hpp : pricePhase record
          (descPhase record (namePhase record (identifiersPhase record
            (skuPhase record (itemIdPhase record (constPhase initRow)))))) =
          dictSet (dictSet (dictSet
            (descPhase record (namePhase record (identifiersPhase record
              (skuPhase record (itemIdPhase record (constPhase initRow))))))
            "Rate" v) "Purchase Rate" v) "CF.Cost" v := by
        unfold pricePhase
        rw [hv]
        simp [hne]
      have base : ∀ k : String, k ≠ "CF.Manufacturer" → k ≠ "Item Type" →
          k ≠ "CF.URL" →
          getCol (preResidual record) k =
          getCol (dictSet (dictSet (dictSet
            (descPhase record (namePhase record (identifiersPhase record
              (skuPhase record (itemIdPhase record (constPhase initRow))))))
            "Rate" v) "Purchase Rate" v) "CF.Cost" v) k := by
        intro k a b c
        unfold preResidual
        rw [urlPhase_ne _ _ _ c, categoryPhase_ne _ _ _ b, brandPhase_ne _ _ _ a, hpp]
      have hRate : getCol (preResidual record) "Rate" = v := by
        rw [base _ (by decide) (by decide) (by decide),
          getCol_dictSet_ne _ _ _ _ (by decide), getCol_dictSet_ne _ _ _ _ (by decide),
          getCol_dictSet_self]
      have hPR : getCol (preResidual record) "Purchase Rate" = v := by
        rw [base _ (by decide) (by decide) (by decide),
          getCol_dictSet_ne _ _ _ _ (by decide), getCol_dictSet_self]
      have hCC : getCol (preResidual record) "CF.Cost" = v := by
        rw [base _ (by decide) (by decide) (by decide), getCol_dictSet_self]
      have lift : ∀ k : String, k ≠ "CF.Material" →
          getCol (preResidual record) k = v → getCol row k = v := by
        intro k hkm hk
        have hMk : getCol rowM k = v := by
          rw [materialPhase_ok_ne _ _ _ _ hkm hmat]
          exact hk
        rw [hres, residualLoop_nonempty _ _ _ (by rw [hMk]; exact hne)]
        exact hMk
      exact ⟨lift _ (by decide) hRate, lift _ (by decide) hPR, lift _ (by decide) hCC⟩
    · intro hv0 hf
      have hpp : ∀ r : Row, pricePhase record r = r := by
        intro r
        unfold pricePhase
        rcases hv0 with h0 | h0 <;> (rw [h0]; try simp)
      have hempty : ∀ k : String,
          (k ≠ "Item ID" ∧ k ≠ "SKU" ∧ k ≠ "Item Name" ∧ k ≠ "Description" ∧
            k ≠ "CF.Description" ∧ k ≠ "CF.Manufacturer" ∧ k ≠ "Item Type" ∧
            k ≠ "CF.URL") →
          getCol (preResidual record) k = getCol (constPhase initRow) k := by
        intro k hk
        obtain ⟨a1, a2, a3, a4, a5, a6, a7, a8⟩ := hk
        unfold preResidual
        rw [urlPhase_ne _ _ _ a8, categoryPhase_ne _ _ _ a7, brandPhase_ne _ _ _ a6,
          hpp, descPhase_ne _ _ _ a4 a5, namePhase_ne _ _ _ a3,
          identifiersPhase_ne _ _ _ a1 a2, skuPhase_ne _ _ _ a2, itemIdPhase_ne _ _ _ a1]
      have final : ∀ k : String,
          (k ≠ "Item ID" ∧ k ≠ "SKU" ∧ k ≠ "Item Name" ∧ k ≠ "Description" ∧
            k ≠ "CF.Description" ∧ k ≠ "CF.Manufacturer" ∧ k ≠ "Item Type" ∧
            k ≠ "CF.URL") → k ≠ "CF.Material" →
          getCol (constPhase initRow) k = "" →
          (∀ f jv, (f, jv) ∈ record → inList f skipFields = false →
            map_field_name f ≠ k) →
          getCol row k = "" := by
        intro k hk hkm hc hfk
        have hMk : getCol rowM k = "" := by
          rw [materialPhase_ok_ne _ _ _ _ hkm hmat, hempty k hk]
          exact hc
        rw [hres]
        exact residualLoop_no_fill record rowM k hMk hfk
      exact ⟨final "Rate" (by decide) (by decide) (by decide)
          (fun f jv hm hs => (hf f jv hm hs).1),
        final "Purchase Rate" (by decide) (by decide) (by decide)
          (fun f jv hm hs => (hf f jv hm hs).2.1),
        final "CF.Cost" (by decide) (by decide) (by decide)
          (fun f jv hm hs => (hf f jv hm hs).2.2)⟩

theorem standardize_price_rule_witness :
    getCol
      [("Item ID", ""), ("Item Name", ""), ("SKU", ""), ("Description", ""),
       ("Rate", "7"), ("Source", "HD"), ("Reference ID", ""), ("Usage unit", ""),
       ("Purchase Rate", "7"), ("Purchase Account", "HD"), ("Vendor", "HD"),
       ("Item Type", ""), ("Is Combo Product", ""), ("CF.Manufacturer", ""),
       ("CF.URL", ""), ("CF.Markup", "43%"), ("CF.Description", ""),
       ("CF.Supplier", "HD"), ("CF.Material", ""), ("CF.Cost", "7")] "Rate" = "7" :=
  (((standardize_price_rule.2.2 [("price", JVal.str "$7")] _ (by decide)).1
    "7" (by decide) (by decide)).1)

/-! ## Claim C7: what a second application of the Standardizer computes -/

theorem mfn_eval :
    map_field_name "Item ID" = "Item ID" ∧ map_field_name "Item Name" = "Item Name" ∧
    map_field_name "SKU" = "SKU" ∧ map_field_name "Description" = "Description" ∧
    map_field_name "Rate" = "Rate" ∧ map_field_name "Source" = "Source" ∧
    map_field_name "Reference ID" = "Item ID" ∧
    map_field_name "Usage unit" = "Usage unit" ∧
    map_field_name "Purchase Rate" = "Rate" ∧
    map_field_name "Purchase Account" = "Purchase Account" ∧
    map_field_name "Vendor" = "Vendor" ∧ map_field_name "Item Type" = "Item Type" ∧
    map_field_name "Is Combo Product" = "Is Combo Product" ∧
    map_field_name "CF.Manufacturer" = "CF.Manufacturer" ∧
    map_field_name "CF.URL" = "CF.URL" ∧ map_field_name "CF.Markup" = "CF.Markup" ∧
    map_field_name "CF.Description" = "Description" ∧
    map_field_name "CF.Supplier" = "CF.Supplier" ∧
    map_field_name "CF.Material" = "CF.Material" ∧
    map_field_name "CF.Cost" = "CF.Cost" := by decide

set_option maxHeartbeats 2000000 in
theorem preResidual_canonical (v1 v2 v3 v4 v5 v6 v7 v8 v9 v10 v11 v12 v13 v14 v15 v16 v17 v18 v19 v20 : String) :
    preResidual (toObj
      [("Item ID", v1), ("Item Name", v2), ("SKU", v3), ("Description", v4),
       ("Rate", v5), ("Source", v6), ("Reference ID", v7), ("Usage unit", v8),
       ("Purchase Rate", v9), ("Purchase Account", v10), ("Vendor", v11),
       ("Item Type", v12), ("Is Combo Product", v13), ("CF.Manufacturer", v14),
       ("CF.URL", v15), ("CF.Markup", v16), ("CF.Description", v17),
       ("CF.Supplier", v18), ("CF.Material", v19), ("CF.Cost", v20)]) =
    constPhase initRow := by
  simp [preResidual, toObj, itemIdPhase, skuPhase, identifiersPhase, namePhase,
    descPhase, truthyGet, pricePhase, priceValue, buyboxPrice, brandPhase,
    categoryPhase, urlPhase, jget, getCol, constPhase, dictSet, initRow,
    STANDARD_HEADERS, truthy, pyStr]

set_option maxHeartbeats 2000000 in
theorem materialPhase_canonical (v1 v2 v3 v4 v5 v6 v7 v8 v9 v10 v11 v12 v13 v14 v15 v16 v17 v18 v19 v20 : String) :
    materialPhase (toObj
      [("Item ID", v1), ("Item Name", v2), ("SKU", v3), ("Description", v4),
       ("Rate", v5), ("Source", v6), ("Reference ID", v7), ("Usage unit", v8),
       ("Purchase Rate", v9), ("Purchase Account", v10), ("Vendor", v11),
       ("Item Type", v12), ("Is Combo Product", v13), ("CF.Manufacturer", v14),
       ("CF.URL", v15), ("CF.Markup", v16), ("CF.Description", v17),
       ("CF.Supplier", v18), ("CF.Material", v19), ("CF.Cost", v20)])
      (constPhase initRow) = .ok (constPhase initRow) := by
  simp [materialPhase, toObj, jget]

section
attribute [local irreducible] map_field_name

set_option maxHeartbeats 4000000 in
theorem residualLoop_canonical (v1 v2 v3 v4 v5 v6 v7 v8 v9 v10 v11 v12 v13 v14 v15 v16 v17 v18 v19 v20 : String) :
    residualLoop (toObj
      [("Item ID", v1), ("Item Name", v2), ("SKU", v3), ("Description", v4),
       ("Rate", v5), ("Source", v6), ("Reference ID", v7), ("Usage unit", v8),
       ("Purchase Rate", v9), ("Purchase Account", v10), ("Vendor", v11),
       ("Item Type", v12), ("Is Combo Product", v13), ("CF.Manufacturer", v14),
       ("CF.URL", v15), ("CF.Markup", v16), ("CF.Description", v17),
       ("CF.Supplier", v18), ("CF.Material", v19), ("CF.Cost", v20)])
      (constPhase initRow) =
      [("Item ID", if v1 = "" then v7 else v1), ("Item Name", v2), ("SKU", v3),
       ("Description", if v4 = "" then v17 else v4),
       ("Rate", if v5 = "" then v9 else v5), ("Source", "HD"),
       ("Reference ID", ""), ("Usage unit", v8), ("Purchase Rate", ""),
       ("Purchase Account", "HD"), ("Vendor", "HD"), ("Item Type", v12),
       ("Is Combo Product", v13), ("CF.Manufacturer", v14), ("CF.URL", v15),
       ("CF.Markup", "43%"), ("CF.Description", ""), ("CF.Supplier", "HD"),
       ("CF.Material", v19), ("CF.Cost", v20)] := by
  by_cases h1 : v1 = "" <;> by_cases h4 : v4 = "" <;> by_cases h5 : v5 = "" <;>
    simp [h1, h4, h5, residualLoop, toObj, dictSet, getCol, mfn_eval,
      inList, skipFields, STANDARD_HEADERS, pyStr, constPhase, initRow]

end

theorem standardize_record_canonical_eval (v1 v2 v3 v4 v5 v6 v7 v8 v9 v10 v11 v12 v13 v14 v15 v16 v17 v18 v19 v20 : String) :
    standardize_record (toObj
      [("Item ID", v1), ("Item Name", v2), ("SKU", v3), ("Description", v4),
       ("Rate", v5), ("Source", v6), ("Reference ID", v7), ("Usage unit", v8),
       ("Purchase Rate", v9), ("Purchase Account", v10), ("Vendor", v11),
       ("Item Type", v12), ("Is Combo Product", v13), ("CF.Manufacturer", v14),
       ("CF.URL", v15), ("CF.Markup", v16), ("CF.Description", v17),
       ("CF.Supplier", v18), ("CF.Material", v19), ("CF.Cost", v20)]) =
    .ok
      [("Item ID", if v1 = "" then v7 else v1), ("Item Name", v2), ("SKU", v3),
       ("Description", if v4 = "" then v17 else v4),
       ("Rate", if v5 = "" then v9 else v5), ("Source", "HD"),
       ("Reference ID", ""), ("Usage unit", v8), ("Purchase Rate", ""),
       ("Purchase Account", "HD"), ("Vendor", "HD"), ("Item Type", v12),
       ("Is Combo Product", v13), ("CF.Manufacturer", v14), ("CF.URL", v15),
       ("CF.Markup", "43%"), ("CF.Description", ""), ("CF.Supplier", "HD"),
       ("CF.Material", v19), ("CF.Cost", v20)] := by
  simp only [standardize_record, preResidual_canonical, materialPhase_canonical]
  exact congrArg Except.ok (residualLoop_canonical v1 v2 v3 v4 v5 v6 v7 v8 v9 v10
    v11 v12 v13 v14 v15 v16 v17 v18 v19 v20)

set_option maxHeartbeats 1000000 in
theorem row_decomp (r : Row) (h : r.map Prod.fst = STANDARD_HEADERS) :
    r = [("Item ID", getCol r "Item ID"), ("Item Name", getCol r "Item Name"),
         ("SKU", getCol r "SKU"), ("Description", getCol r "Description"),
         ("Rate", getCol r "Rate"), ("Source", getCol r "Source"),
         ("Reference ID", getCol r "Reference ID"),
         ("Usage unit", getCol r "Usage unit"),
         ("Purchase Rate", getCol r "Purchase Rate"),
         ("Purchase Account", getCol r "Purchase Account"),
         ("Vendor", getCol r "Vendor"), ("Item Type", getCol r "Item Type"),
         ("Is Combo Product", getCol r "Is Combo Product"),
         ("CF.Manufacturer", getCol r "CF.Manufacturer"),
         ("CF.URL", getCol r "CF.URL"), ("CF.Markup", getCol r "CF.Markup"),
         ("CF.Description", getCol r "CF.Description"),
         ("CF.Supplier", getCol r "CF.Supplier"),
         ("CF.Material", getCol r "CF.Material"),
         ("CF.Cost", getCol r "CF.Cost")] := by
  rcases r with _ | ⟨⟨k1, v1⟩, r⟩
  · simp [STANDARD_HEADERS] at h
  rcases r with _ | ⟨⟨k2, v2⟩, r⟩
  · simp [STANDARD_HEADERS] at h
  rcases r with _ | ⟨⟨k3, v3⟩, r⟩
  · simp [STANDARD_HEADERS] at h
  rcases r with _ | ⟨⟨k4, v4⟩, r⟩
  · simp [STANDARD_HEADERS] at h
  rcases r with _ | ⟨⟨k5, v5⟩, r⟩
  · simp [STANDARD_HEADERS] at h
  rcases r with _ | ⟨⟨k6, v6⟩, r⟩
  · simp [STANDARD_HEADERS] at h
  rcases r with _ | ⟨⟨k7, v7⟩, r⟩
  · simp [STANDARD_HEADERS] at h
  rcases r with _ | ⟨⟨k8, v8⟩, r⟩
  · simp [STANDARD_HEADERS] at h
  rcases r with _ | ⟨⟨k9, v9⟩, r⟩
  · simp [STANDARD_HEADERS] at h
  rcases r with _ | ⟨⟨k10, v10⟩, r⟩
  · simp [STANDARD_HEADERS] at h
  rcases r with _ | ⟨⟨k11, v11⟩, r⟩
  · simp [STANDARD_HEADERS] at h
  rcases r with _ | ⟨⟨k12, v12⟩, r⟩
  · simp [STANDARD_HEADERS] at h
  rcases r with _ | ⟨⟨k13, v13⟩, r⟩
  · simp [STANDARD_HEADERS] at h
  rcases r with _ | ⟨⟨k14, v14⟩, r⟩
  · simp [STANDARD_HEADERS] at h
  rcases r with _ | ⟨⟨k15, v15⟩, r⟩
  · simp [STANDARD_HEADERS] at h
  rcases r with _ | ⟨⟨k16, v16⟩, r⟩
  · simp [STANDARD_HEADERS] at h
  rcases r with _ | ⟨⟨k17, v17⟩, r⟩
  · simp [STANDARD_HEADERS] at h
  rcases r with _ | ⟨⟨k18, v18⟩, r⟩
  · simp [STANDARD_HEADERS] at h
  rcases r with _ | ⟨⟨k19, v19⟩, r⟩
  · simp [STANDARD_HEADERS] at h
  rcases r with _ | ⟨⟨k20, v20⟩, r⟩
  · simp [STANDARD_HEADERS] at h
  simp only [STANDARD_HEADERS, List.map_cons, List.cons.injEq, List.map_eq_nil_iff] at h
  obtain ⟨e1, e2, e3, e4, e5, e6, e7, e8, e9, e10, e11, e12, e13, e14, e15, e16,
    e17, e18, e19, e20, hr⟩ := h
  subst e1 e2 e3 e4 e5 e6 e7 e8 e9 e10 e11 e12 e13 e14 e15 e16 e17 e18 e19 e20 hr
  simp [getCol]

/-- C7 (counterexample): the Standardizer is not idempotent — for the flat
product `{"title": "Widget"}` a second application gives a different row
(`CF.Description` drops from `"Widget"` to `""`). -/
theorem standardize_record_not_idempotent :
    ((standardize_record [("title", JVal.str "Widget")]).bind
      (fun r => standardize_record (toObj r))) ≠
    standardize_record [("title", JVal.str "Widget")] := by decide

/-- C7 (amended): a second application of `standardize_record` is not the
identity on its output.  The canonical column names miss the lowercase source
keys, so every column of the first row comes back only through the residual
pass; there "Reference ID" maps to "Item ID", "Purchase Rate" to "Rate" and
"CF.Description" to "Description" — filling those columns only when they were
empty — and the three columns themselves are reset to the empty string, while
every other column (and the five constants) survives: the second application
computes exactly `reapplyRow` of the first row. -/
theorem standardize_record_second_application (p : Jobj) (r : Row)
    (h : standardize_record p = .ok r) :
    standardize_record (toObj r) = .ok (reapplyRow r) := by
  have hkeys : r.map Prod.fst = STANDARD_HEADERS := by
    obtain ⟨rowM, hmat, hres⟩ := standardize_record_ok p r h
    rw [hres]
    exact residualLoop_keys _ _ (materialPhase_keys _ _ _ (preResidual_keys p) hmat)
  rw [row_decomp r hkeys, standardize_record_canonical_eval]
  simp [reapplyRow, getCol]

theorem standardize_record_second_application_witness :
    standardize_record (toObj
      [("Item ID", ""), ("Item Name", "Widget"), ("SKU", ""),
       ("Description", "Widget"), ("Rate", ""), ("Source", "HD"),
       ("Reference ID", ""), ("Usage unit", ""), ("Purchase Rate", ""),
       ("Purchase Account", "HD"), ("Vendor", "HD"), ("Item Type", ""),
       ("Is Combo Product", ""), ("CF.Manufacturer", ""), ("CF.URL", ""),
       ("CF.Markup", "43%"), ("CF.Description", "Widget"),
       ("CF.Supplier", "HD"), ("CF.Material", ""), ("CF.Cost", "")]) =
    .ok (reapplyRow
      [("Item ID", ""), ("Item Name", "Widget"), ("SKU", ""),
       ("Description", "Widget"), ("Rate", ""), ("Source", "HD"),
       ("Reference ID", ""), ("Usage unit", ""), ("Purchase Rate", ""),
       ("Purchase Account", "HD"), ("Vendor", "HD"), ("Item Type", ""),
       ("Is Combo Product", ""), ("CF.Manufacturer", ""), ("CF.URL", ""),
       ("CF.Markup", "43%"), ("CF.Description", "Widget"),
       ("CF.Supplier", "HD"), ("CF.Material", ""), ("CF.Cost", "")]) :=
  standardize_record_second_application [("title", JVal.str "Widget")] _ (by decide)

/-! ## Claim C8: the unsynchronized duplicate check-and-insert -/

/-- C8: the membership test and the insertion on the shared `known_records`
are two separate unsynchronized steps (the source takes no lock), so the
interleaving in which both workers run their membership test before either
inserts makes both treat the same record key `"id:42"` — the key generated
for a standardized row with `item_id = "42"` — as novel and the row is
written twice, while the serialized schedule classifies the second worker's
copy as a duplicate.  The claim's atomic check-and-insert would forbid the
first outcome. -/
theorem known_records_race :
    (raceRun "id:42" [true, false, true, false] raceInit).novel1 = true ∧
    (raceRun "id:42" [true, false, true, false] raceInit).novel2 = true ∧
    (raceRun "id:42" [true, false, true, false] raceInit).written = 2 ∧
    (raceRun "id:42" [true, true, false, false] raceInit).novel1 = true ∧
    (raceRun "id:42" [true, true, false, false] raceInit).novel2 = false ∧
    (raceRun "id:42" [true, true, false, false] raceInit).written = 1 ∧
    (standardize_record [("item_id", JVal.str "42")]).map generate_record_key =
      Except.ok "id:42" := by decide

/-! ## Batch-level lemmas for the orchestrator claims -/

theorem optKnown_refold (k : Option Known) : k.map (fun _ => k.getD []) = k := by
  cases k <;> rfl

theorem process_json_file_parse_error (name msg : String) (known : Known) :
    process_json_file name (.error msg) known =
      ({ rows := [], record_count := 0, duplicate_count := 0,
         errors := ["Error parsing " ++ name ++ ": " ++ msg] }, known) := rfl

theorem runFiles_cons_error (name msg : String)
    (files : List (String × Except String JVal)) (k : Option Known) :
    runFiles ((name, .error msg) :: files) k =
      (({ rows := [], record_count := 0, duplicate_count := 0,
          errors := ["Error parsing " ++ name ++ ": " ++ msg] } : PFile) ::
        (runFiles files k).1,
       (runFiles files k).2) := by
  simp [runFiles, process_json_file, optKnown_refold]

theorem runFiles_append (as bs : List (String × Except String JVal))
    (k : Option Known) :
    runFiles (as ++ bs) k =
      ((runFiles as k).1 ++ (runFiles bs (runFiles as k).2).1,
       (runFiles bs (runFiles as k).2).2) := by
  induction as generalizing k with
  | nil => simp [runFiles]
  | cons f rest ih => simp [runFiles, ih]

theorem processItem_inv (path : String) (item : JVal) (st : PFile × Known)
    (h : st.1.record_count = st.1.rows.length) :
    (processItem path item st).1.record_count =
    (processItem path item st).1.rows.length := by
  unfold processItem
  split
  · split
    · simpa using h
    · dsimp only
      split
      · simpa using h
      · simp [h]
  · simpa using h

theorem foldl_processItem_inv (items : List JVal) (path : String) :
    ∀ st : PFile × Known, st.1.record_count = st.1.rows.length →
    (items.foldl (fun st item => processItem path item st) st).1.record_count =
    (items.foldl (fun st item => processItem path item st) st).1.rows.length := by
  induction items with
  | nil => exact fun st h => h
  | cons item rest ih =>
    intro st h
    exact ih (processItem path item st) (processItem_inv path item st h)

theorem fallbackCore_inv (path : String) (j : JVal) (known : Known)
    (r : PFile × Known) (h : fallbackCore path j known = .ok r) :
    r.1.record_count = r.1.rows.length := by
  unfold fallbackCore at h
  revert h
  cases extract_product_data j with
  | error e => intro h; cases h
  | ok pd =>
    intro h
    simp only [Except.bind] at h
    cases h
    exact foldl_processItem_inv _ path (emptyPFile, known) rfl

theorem processCore_inv (path : String) (j : JVal) (known : Known)
    (r : PFile × Known) (h : processCore path j known = .ok r) :
    r.1.record_count = r.1.rows.length := by
  unfold processCore at h
  split at h
  · split at h
    · cases h
      exact processItem_inv path _ (emptyPFile, _) rfl
    · exact fallbackCore_inv path _ known r h
  · split at h
    · cases h
    · exact fallbackCore_inv path _ known r h
  · split at h
    · cases h
    · exact fallbackCore_inv path _ known r h
  · cases h

theorem process_json_file_inv (path : String) (content : Except String JVal)
    (known : Known) :
    (process_json_file path content known).1.record_count =
    (process_json_file path content known).1.rows.length := by
  unfold process_json_file
  split
  · rfl
  · split
    next r heq => exact processCore_inv path _ known r heq
    next => rfl

theorem runFiles_records (files : List (String × Except String JVal)) :
    ∀ k, ((runFiles files k).1.map (·.record_count)).sum =
      (((runFiles files k).1.map (·.rows)).flatten).length := by
  induction files with
  | nil => intro k; simp [runFiles]
  | cons f rest ih =>
    intro k
    simp [runFiles, ih, process_json_file_inv]

theorem runFiles_length (files : List (String × Except String JVal)) :
    ∀ k, (runFiles files k).1.length = files.length := by
  induction files with
  | nil => intro k; rfl
  | cons f rest ih => intro k; simp [runFiles, ih]

/-! ## Claims C9 and C6: the blank row and malformed-file tolerance -/

/-- C9: when the batch reaches the output-writing stage (the file list is
non-empty), the written stream is the header row, then one entirely blank
row (every canonical column the empty string — exactly what `DictWriter`
emits for the all-empty dict), then the data rows; and `records_processed`
counts exactly the data rows, not the blank one. -/
theorem combine_blank_row (files : List (String × Except String JVal)) (b : Bool)
    (h : files ≠ []) :
    (combine_json_to_csv files b).2 =
      some (STANDARD_HEADERS :: (STANDARD_HEADERS.map (fun _ => "")) ::
        ((((runFiles files (if b then some [] else none)).1.map (·.rows)).flatten).map
          rowValues)) ∧
    rowValues initRow = STANDARD_HEADERS.map (fun _ => "") ∧
    (combine_json_to_csv files b).1.records_processed =
      (((runFiles files (if b then some [] else none)).1.map (·.rows)).flatten).length := by
  have hne : files.isEmpty = false := by
    cases files with
    | nil => exact absurd rfl h
    | cons a l => rfl
  refine ⟨?_, by decide, ?_⟩
  · simp [combine_json_to_csv, hne]
  · simp [combine_json_to_csv, hne, runFiles_records]

theorem combine_blank_row_witness :
    (combine_json_to_csv [("a.json", Except.ok (JVal.obj [("title", JVal.str "T")]))] true).2 =
      some (STANDARD_HEADERS :: (STANDARD_HEADERS.map (fun _ => "")) ::
        ((((runFiles [("a.json", Except.ok (JVal.obj [("title", JVal.str "T")]))]
            (if true then some [] else none)).1.map (·.rows)).flatten).map rowValues)) ∧
    rowValues initRow = STANDARD_HEADERS.map (fun _ => "") ∧
    (combine_json_to_csv [("a.json", Except.ok (JVal.obj [("title", JVal.str "T")]))]
        true).1.records_processed =
      (((runFiles [("a.json", Except.ok (JVal.obj [("title", JVal.str "T")]))]
          (if true then some [] else none)).1.map (·.rows)).flatten).length :=
  combine_blank_row [("a.json", Except.ok (JVal.obj [("title", JVal.str "T")]))] true
    (List.cons_ne_nil _ _)

set_option linter.unnecessarySeqFocus false in
/-- C6: a file whose bytes are not valid JSON contributes zero records and
zero rows, adds exactly one parse error naming that file (in completion
order between the other files' errors), never touches the shared
duplicate-key state, and the batch still processes and writes every other
file's records: the statistics and written stream agree with the run on the
remaining files, while `files_processed` still counts the bad file. -/
theorem combine_invalid_file (pre post : List (String × Except String JVal))
    (name msg : String) (b : Bool) :
    (combine_json_to_csv (pre ++ (name, Except.error msg) :: post) b).1.records_processed =
      ((runFiles (pre ++ post) (if b then some [] else none)).1.map (·.record_count)).sum ∧
    (combine_json_to_csv (pre ++ (name, Except.error msg) :: post) b).1.duplicates_skipped =
      ((runFiles (pre ++ post) (if b then some [] else none)).1.map (·.duplicate_count)).sum ∧
    (combine_json_to_csv (pre ++ (name, Except.error msg) :: post) b).2 =
      some (STANDARD_HEADERS :: (STANDARD_HEADERS.map (fun _ => "")) ::
        ((((runFiles (pre ++ post) (if b then some [] else none)).1.map (·.rows)).flatten).map
          rowValues)) ∧
    (combine_json_to_csv (pre ++ (name, Except.error msg) :: post) b).1.errors =
      ((runFiles pre (if b then some [] else none)).1.map (·.errors)).flatten ++
      ("Error parsing " ++ name ++ ": " ++ msg) ::
      ((runFiles post
          (runFiles pre (if b then some [] else none)).2).1.map (·.errors)).flatten ∧
    (combine_json_to_csv (pre ++ (name, Except.error msg) :: post) b).1.files_processed =
      pre.length + post.length + 1 := by
  have hne : (pre ++ (name, Except.error msg) :: post).isEmpty = false := by
    cases pre <;> rfl
  refine ⟨?_, ?_, ?_, ?_, ?_⟩ <;>
    simp [combine_json_to_csv, hne, runFiles_append, runFiles_cons_error,
      runFiles_length] <;> omega

/-! ## Claim C3: where the description enrichment actually lives -/

theorem truthyGet_eq (o : Jobj) (k : String) (v : JVal)
    (h : truthyGet o k = some v) : jget o k = some v ∧ truthy v = true := by
  unfold truthyGet at h
  split at h
  next w heq =>
    split at h
    next ht =>
      cases h
      exact ⟨heq, ht⟩
    next => cases h
  next => cases h

theorem descMissing_congr (pd1 pd : Jobj)
    (h : jget pd1 "description" = jget pd "description") :
    descMissing pd1 = descMissing pd := by
  unfold descMissing
  rw [h]

theorem descMissing_set (pd : Jobj) (v : JVal) (hv : truthy v = true) :
    descMissing (dictSetJ pd "description" v) = false := by
  unfold descMissing
  rw [jget_dictSetJ_self]
  simp [hv]

theorem offersStep_desc (item pd : Jobj) :
    jget (offersStep item pd) "description" = jget pd "description" ∧
    jget (offersStep item pd) "title" = jget pd "title" := by
  unfold offersStep
  split
  · split
    · split
      · exact ⟨jget_dictSetJ_ne _ _ _ _ (by decide), jget_dictSetJ_ne _ _ _ _ (by decide)⟩
      · exact ⟨rfl, rfl⟩
    · exact ⟨rfl, rfl⟩
  · exact ⟨rfl, rfl⟩

theorem outerDescStep_none (item pd : Jobj)
    (h : truthyGet item "description" = none) :
    outerDescStep item pd = .ok pd := by
  unfold outerDescStep
  rw [h]

theorem snippetStep_none (item pd : Jobj)
    (h : truthyGet item "snippet" = none) :
    snippetStep item pd = .ok pd := by
  unfold snippetStep
  rw [h]

theorem snippetStep_fill (item pd : Jobj) (sv : JVal)
    (h : truthyGet item "snippet" = some sv) (hsl : sliceable sv = true)
    (hm : descMissing pd = true) :
    snippetStep item pd = .ok (dictSetJ pd "description" sv) := by
  simp [snippetStep, h, hsl, hm]

theorem contentSpecStep_none (item pd : Jobj)
    (h : (match jget item "content_spec" with
          | some (.obj cs) => truthyGet cs "description"
          | _ => none) = none) :
    contentSpecStep item pd = .ok pd := by
  unfold contentSpecStep
  split
  next cs heq =>
    rw [heq] at h
    simp only at h
    rw [h]
  next => rfl

theorem contentSpecStep_skip (item pd : Jobj) (hm : descMissing pd = false)
    (hs : (match jget item "content_spec" with
           | some (.obj cs) =>
             match truthyGet cs "description" with
             | some v => sliceable v
             | none => true
           | _ => true) = true) :
    contentSpecStep item pd = .ok pd := by
  unfold contentSpecStep
  split
  next cs heq =>
    rw [heq] at hs
    simp only at hs
    split
    next dv heq2 =>
      rw [heq2] at hs
      simp only at hs
      simp [hs, hm]
    next => rfl
  next => rfl

theorem contentSpecStep_fill (item pd cs : Jobj) (dv : JVal)
    (hcs : jget item "content_spec" = some (.obj cs))
    (hdv : truthyGet cs "description" = some dv) (hsl : sliceable dv = true)
    (hm : descMissing pd = true) :
    contentSpecStep item pd = .ok (dictSetJ pd "description" dv) := by
  simp [contentSpecStep, hcs, hdv, hsl, hm]

theorem specsDescLoop_spec (specs : List JVal) :
    ∀ pd : Jobj, specsSliceable specs = true →
    specsDescLoop specs pd = .ok
      (if descMissing pd = true then
        match specsFirstDescription specs with
        | some vv => dictSetJ pd "description" vv
        | none => pd
      else pd) := by
  induction specs with
  | nil =>
    intro pd _
    simp [specsDescLoop, specsFirstDescription]
  | cons spec rest ih =>
    intro pd hs
    unfold specsSliceable at hs
    rw [List.all_cons, Bool.and_eq_true] at hs
    obtain ⟨hhead, htail⟩ := hs
    have htail' : specsSliceable rest = true := htail
    cases spec with
    | obj kvs =>
      cases hk : jget kvs "key" with
      | none =>
        have hfc : specsFirstDescription (JVal.obj kvs :: rest) =
            specsFirstDescription rest := by
          simp [specsFirstDescription, specEntryDesc, List.findSome?_cons, hk]
        simp only [specsDescLoop, hk]
        rw [ih pd htail', hfc]
      | some kval =>
        cases hv : jget kvs "value" with
        | none =>
          have hfc : specsFirstDescription (JVal.obj kvs :: rest) =
              specsFirstDescription rest := by
            simp [specsFirstDescription, specEntryDesc, List.findSome?_cons, hk, hv]
          simp only [specsDescLoop, hk, hv]
          rw [ih pd htail', hfc]
        | some vval =>
          by_cases hg : (isStrEq "Description" kval && truthy vval) = true
          · have hsl : sliceable vval = true := by
              simp only [hk, hv] at hhead
              rwa [if_pos hg] at hhead
            have hfc : specsFirstDescription (JVal.obj kvs :: rest) = some vval := by
              simp [specsFirstDescription, specEntryDesc, List.findSome?_cons, hk, hv,
                ((Bool.and_eq_true _ _).mp hg).1, ((Bool.and_eq_true _ _).mp hg).2]
            have htv : truthy vval = true := ((Bool.and_eq_true _ _).mp hg).2
            simp only [specsDescLoop, hk, hv]
            rw [if_pos hg, if_pos hsl, hfc]
            by_cases hm : descMissing pd = true
            · rw [if_pos hm, ih _ htail', descMissing_set pd vval htv]
              simp
            · rw [if_neg hm, ih _ htail']
              simp only [Bool.not_eq_true] at hm
              simp [hm]
          · have hgf : (isStrEq "Description" kval && truthy vval) = false :=
              Bool.not_eq_true _ ▸ hg
            have hnand : ¬(isStrEq "Description" kval = true ∧ truthy vval = true) := by
              rw [← Bool.and_eq_true]
              simp [hgf]
            have hfc : specsFirstDescription (JVal.obj kvs :: rest) =
                specsFirstDescription rest := by
              simp [specsFirstDescription, specEntryDesc, List.findSome?_cons, hk, hv, hnand]
            simp only [specsDescLoop, hk, hv]
            rw [if_neg hg, ih pd htail', hfc]
    | null =>
      have hfc : specsFirstDescription (JVal.null :: rest) =
          specsFirstDescription rest := by
        simp [specsFirstDescription, specEntryDesc, List.findSome?_cons]
      simp only [specsDescLoop]
      rw [ih pd htail', hfc]
    | bool b =>
      have hfc : specsFirstDescription (JVal.bool b :: rest) =
          specsFirstDescription rest := by
        simp [specsFirstDescription, specEntryDesc, List.findSome?_cons]
      simp only [specsDescLoop]
      rw [ih pd htail', hfc]
    | int n =>
      have hfc : specsFirstDescription (JVal.int n :: rest) =
          specsFirstDescription rest := by
        simp [specsFirstDescription, specEntryDesc, List.findSome?_cons]
      simp only [specsDescLoop]
      rw [ih pd htail', hfc]
    | float s =>
      have hfc : specsFirstDescription (JVal.float s :: rest) =
          specsFirstDescription rest := by
        simp [specsFirstDescription, specEntryDesc, List.findSome?_cons]
      simp only [specsDescLoop]
      rw [ih pd htail', hfc]
    | str s =>
      have hfc : specsFirstDescription (JVal.str s :: rest) =
          specsFirstDescription rest := by
        simp [specsFirstDescription, specEntryDesc, List.findSome?_cons]
      simp only [specsDescLoop]
      rw [ih pd htail', hfc]
    | arr xs =>
      have hfc : specsFirstDescription (JVal.arr xs :: rest) =
          specsFirstDescription rest := by
        simp [specsFirstDescription, specEntryDesc, List.findSome?_cons]
      simp only [specsDescLoop]
      rw [ih pd htail', hfc]

theorem specEntryDesc_truthy (spec w : JVal) (h : specEntryDesc spec = some w) :
    truthy w = true := by
  unfold specEntryDesc at h
  split at h
  next kvs =>
    split at h
    next kval vval _ _ =>
      split at h
      next hg =>
        cases h
        exact ((Bool.and_eq_true _ _).mp hg).2
      next => cases h
    next => cases h
  next => cases h

theorem specsFirstDescription_truthy (specs : List JVal) (vv : JVal)
    (h : specsFirstDescription specs = some vv) : truthy vv = true := by
  induction specs with
  | nil => cases h
  | cons spec rest ih =>
    unfold specsFirstDescription at h
    rw [List.findSome?_cons] at h
    cases hfs : specEntryDesc spec with
    | some w =>
      rw [hfs] at h
      simp only at h
      cases h
      exact specEntryDesc_truthy spec _ hfs
    | none =>
      rw [hfs] at h
      simp only at h
      exact ih h

theorem truthyGet_congr (o1 o2 : Jobj) (k : String)
    (h : jget o1 k = jget o2 k) : truthyGet o1 k = truthyGet o2 k := by
  unfold truthyGet
  rw [h]

theorem exbind_ok {α β : Type} (a : α) (f : α → Except String β) :
    (Except.ok a).bind f = f a := rfl

theorem specsStep_arr (item pd : Jobj) (specs : List JVal)
    (hj : jget item "specifications" = some (.arr specs))
    (hs : specsSliceable specs = true) :
    specsStep item pd = .ok
      (if descMissing pd = true then
        match specsFirstDescription specs with
        | some vv => dictSetJ pd "description" vv
        | none => pd
      else pd) := by
  simp only [specsStep, hj]
  exact specsDescLoop_spec specs pd hs

theorem specsStep_notarr (item pd : Jobj)
    (hj : (match jget item "specifications" with
           | some (.arr specs) => some specs
           | _ => (none : Option (List JVal))) = none) :
    specsStep item pd = .ok pd := by
  unfold specsStep
  split
  next specs heq =>
    rw [heq] at hj
    simp only at hj
    exact absurd hj (by simp)
  next => rfl

theorem titleStep_skip (pd : Jobj) (hm : descMissing pd = false) :
    titleStep pd = pd := by
  simp [titleStep, hm]

theorem titleStep_fill (pd : Jobj) (tv : JVal) (hm : descMissing pd = true)
    (ht : jget pd "title" = some tv) :
    titleStep pd = dictSetJ pd "description" tv := by
  simp [titleStep, hm, ht]

theorem enrich_search_item_eq (item pd0 : Jobj)
    (hpd : jget item "product" = some (.obj pd0)) :
    enrich_search_item item =
      (outerDescStep item (offersStep item pd0)).bind (fun pd =>
      (snippetStep item pd).bind (fun pd =>
      (contentSpecStep item pd).bind (fun pd =>
      (specsStep item pd).bind (fun pd =>
      Except.ok (some (titleStep pd)))))) := by
  unfold enrich_search_item
  rw [hpd]
  rfl

theorem descFill_some (pd : Jobj) (v : JVal) :
    descFill pd (some v) = dictSetJ pd "description" v := rfl

theorem descFill_none (pd : Jobj) : descFill pd none = pd := rfl

theorem contentSpecProbe_truthy (item : Jobj) (dv : JVal)
    (h : contentSpecProbe item = some dv) : truthy dv = true := by
  unfold contentSpecProbe at h
  split at h
  next cs _ => exact (truthyGet_eq cs "description" dv h).2
  next => cases h

theorem specsProbe_truthy (item : Jobj) (vv : JVal)
    (h : specsProbe item = some vv) : truthy vv = true := by
  unfold specsProbe at h
  split at h
  next specs _ => exact specsFirstDescription_truthy specs vv h
  next => cases h

theorem snippetStep_spec (item pd : Jobj)
    (hs : (match truthyGet item "snippet" with
           | some v => sliceable v
           | none => true) = true) :
    snippetStep item pd =
      .ok (if descMissing pd = true then descFill pd (truthyGet item "snippet")
           else pd) := by
  unfold snippetStep
  cases hsn : truthyGet item "snippet" with
  | some sv =>
    rw [hsn] at hs
    simp only at hs
    simp [hs, descFill]
  | none => simp [descFill]

theorem contentSpecStep_spec (item pd : Jobj)
    (hs : (match jget item "content_spec" with
           | some (.obj cs) =>
             match truthyGet cs "description" with
             | some v => sliceable v
             | none => true
           | _ => true) = true) :
    contentSpecStep item pd =
      .ok (if descMissing pd = true then descFill pd (contentSpecProbe item)
           else pd) := by
  unfold contentSpecStep contentSpecProbe
  cases hcs : jget item "content_spec" with
  | none => simp [descFill]
  | some cv =>
    cases cv
    case obj cs =>
      rw [hcs] at hs
      simp only at hs
      cases hdv : truthyGet cs "description" with
      | some dv =>
        rw [hdv] at hs
        simp only at hs
        simp [hdv, hs, descFill]
      | none => simp [hdv, descFill]
    all_goals simp [descFill]

theorem specsStep_spec (item pd : Jobj)
    (hs : (match jget item "specifications" with
           | some (.arr specs) => specsSliceable specs
           | _ => true) = true) :
    specsStep item pd =
      .ok (if descMissing pd = true then descFill pd (specsProbe item)
           else pd) := by
  unfold specsStep specsProbe
  cases hj : jget item "specifications" with
  | none => simp [descFill]
  | some jv =>
    cases jv
    case arr specs =>
      rw [hj] at hs
      simp only at hs
      simp only [specsDescLoop_spec specs pd hs]
      cases hf : specsFirstDescription specs with
      | some vv => simp [descFill]
      | none => simp [descFill]
    all_goals simp [descFill]

theorem specsStep_skip (item pd : Jobj) (hm : descMissing pd = false)
    (hs : (match jget item "specifications" with
           | some (.arr specs) => specsSliceable specs
           | _ => true) = true) :
    specsStep item pd = .ok pd := by
  rw [specsStep_spec item pd hs, hm]
  simp

/-- C3 (amended): the description enrichment lives in the dev server's
conversion loop (`run_conversion` in `app.py`), not in the batch
`process_json_file` unit.  For a search-results item carrying a nested
`product` mapping, when the item has no truthy outer `description`, the
product mapping (after the offers-price hoist) lacks a truthy `description`,
and every value the enrichment's log lines slice is sliceable, the loop
copies into `description` the first truthy hit of the claimed probe order —
sibling `snippet`, nested `content_spec.description`, a `specifications`
entry whose key is `"Description"`, then the product's own `title` — before
the mapping reaches the Standardizer. -/
theorem enrich_search_item_probe (item pd0 : Jobj) (v : JVal)
    (hpd : jget item "product" = some (.obj pd0))
    (houter : truthyGet item "description" = none)
    (hmiss : descMissing pd0 = true)
    (hsafe : probeSafe item = true)
    (hp : claimDescriptionProbe item pd0 = some v) :
    (enrich_search_item item).map (fun o => o.map (fun pd => jget pd "description")) =
      Except.ok (some (some v)) := by
  unfold probeSafe at hsafe
  rw [Bool.and_eq_true, Bool.and_eq_true] at hsafe
  obtain ⟨⟨hs1, hs2⟩, hs3⟩ := hsafe
  have hod := (offersStep_desc item pd0).1
  have hot := (offersStep_desc item pd0).2
  have hm1 : descMissing (offersStep item pd0) = true := by
    rw [descMissing_congr _ _ hod]
    exact hmiss
  rw [enrich_search_item_eq item pd0 hpd,
      outerDescStep_none item _ houter, exbind_ok,
      snippetStep_spec item _ hs1, exbind_ok, if_pos hm1]
  unfold claimDescriptionProbe at hp
  cases hsn : truthyGet item "snippet" with
  | some sv =>
    rw [hsn] at hp
    simp only at hp
    injection hp with hv
    subst hv
    rw [descFill_some]
    have hts : truthy sv = true := (truthyGet_eq item "snippet" sv hsn).2
    have hm2 := descMissing_set (offersStep item pd0) sv hts
    rw [contentSpecStep_skip item _ hm2 hs2, exbind_ok,
        specsStep_skip item _ hm2 hs3, exbind_ok, titleStep_skip _ hm2]
    simp [Except.map, jget_dictSetJ_self]
  | none =>
    rw [hsn] at hp
    simp only at hp
    rw [descFill_none,
        contentSpecStep_spec item _ hs2, exbind_ok, if_pos hm1]
    cases hc2 : contentSpecProbe item with
    | some dv =>
      rw [hc2] at hp
      simp only at hp
      injection hp with hv
      subst hv
      rw [descFill_some]
      have htd : truthy dv = true := contentSpecProbe_truthy item dv hc2
      have hm2 := descMissing_set (offersStep item pd0) dv htd
      rw [specsStep_skip item _ hm2 hs3, exbind_ok, titleStep_skip _ hm2]
      simp [Except.map, jget_dictSetJ_self]
    | none =>
      rw [hc2] at hp
      simp only at hp
      rw [descFill_none,
          specsStep_spec item _ hs3, exbind_ok, if_pos hm1]
      cases hc3 : specsProbe item with
      | some vv =>
        rw [hc3] at hp
        simp only at hp
        injection hp with hv
        subst hv
        rw [descFill_some]
        have htv : truthy vv = true := specsProbe_truthy item vv hc3
        have hm2 := descMissing_set (offersStep item pd0) vv htv
        rw [titleStep_skip _ hm2]
        simp [Except.map, jget_dictSetJ_self]
      | none =>
        rw [hc3] at hp
        simp only at hp
        rw [descFill_none]
        obtain ⟨hjt, _⟩ := truthyGet_eq pd0 "title" v hp
        have hpt1 : jget (offersStep item pd0) "title" = some v := by
          rw [hot]
          exact hjt
        rw [titleStep_fill _ v hm1 hpt1]
        simp [Except.map, jget_dictSetJ_self]

theorem enrich_search_item_probe_witness :
    (enrich_search_item [("product", JVal.obj [("title", JVal.str "T")]),
                         ("snippet", JVal.str "S")]).map
        (fun o => o.map (fun pd => jget pd "description")) =
      Except.ok (some (some (JVal.str "S"))) :=
  enrich_search_item_probe
    [("product", JVal.obj [("title", JVal.str "T")]), ("snippet", JVal.str "S")]
    [("title", JVal.str "T")] (JVal.str "S") rfl rfl rfl rfl rfl

/-- C3, counterexample to the stated unit: the batch `process_json_file`
performs no description enrichment.  On a search-results document whose item
carries a truthy sibling `snippet` "S" and a product `title` "T", the batch
unit's output row has Description "T" (the Standardizer's title fallback);
the claimed probe would have put the snippet "S" there, as the dev-server
enrichment indeed does on the same item. -/
theorem process_json_file_no_enrichment :
    ((process_json_file "f.json"
        (.ok (JVal.obj [("search_results",
          JVal.arr [JVal.obj [("product", JVal.obj [("title", JVal.str "T")]),
                              ("snippet", JVal.str "S")]])]))
        []).1.rows.map (fun r => getCol r "Description")) = ["T"] ∧
    ((enrich_search_item [("product", JVal.obj [("title", JVal.str "T")]),
                          ("snippet", JVal.str "S")]).map
        (fun o => o.map (fun pd => jget pd "description")) =
      Except.ok (some (some (JVal.str "S")))) ∧
    "T" ≠ "S" := by
  refine ⟨rfl, rfl, by decide⟩
